import Mathlib

/-!
Verification of the pixel-cleaner CSV deduplication pipeline
(`pixelcleaner.py`).  The Python source is shallowly embedded: pure
helpers become Lean functions on `String` / `List Char`, the stateful
row-aggregation loop becomes explicit state passing over an
insertion-ordered association list, and code that can raise a Python
exception returns `Except PyErr`.
-/

namespace PixelCleaner

/-- Model of Python `str.lower()` (ASCII case folding suffices for the
values this program compares). -/
def pyLower (s : String) : String := String.mk (s.data.map Char.toLower)

/-- Model of Python `str.upper()`. -/
def pyUpper (s : String) : String := String.mk (s.data.map Char.toUpper)

/-- Model of Python `a or b` on strings: the first operand unless it is
empty (falsy). -/
def pyOr (a b : String) : String := if a ≠ "" then a else b

/-- Boolean test that `pat` is a leading segment of `l`. -/
def listLeads : List Char → List Char → Bool
  | [], _ => true
  | _ :: _, [] => false
  | p :: ps, c :: cs => p = c && listLeads ps cs

/-- Boolean test that `pat` occurs contiguously inside `l` (model of the
Python `in` substring operator). -/
def listOccurs (pat : List Char) : List Char → Bool
  | [] => pat.isEmpty
  | c :: cs => listLeads pat (c :: cs) || listOccurs pat cs

/-- Model of Python `str.strip()` with no arguments: drop leading and
trailing whitespace. -/
def pyStrip (s : String) : String :=
  String.mk (((s.data.dropWhile Char.isWhitespace).reverse.dropWhile Char.isWhitespace).reverse)

/-- Split a character list at every character satisfying `p`, keeping
empty pieces (the behaviour of `String.split` / single-character
`str.split(sep)`). -/
def splitChars (p : Char → Bool) : List Char → List (List Char)
  | [] => [[]]
  | c :: cs =>
    if p c then [] :: splitChars p cs
    else
      match splitChars p cs with
      | [] => [[c]]
      | piece :: rest => (c :: piece) :: rest

/-- Model of Python `s.split(sep)` for a one-character separator. -/
def pySplitOnChar (sep : Char) (s : String) : List String :=
  (splitChars (fun c => c = sep) s.data).map String.mk

/-- Model of Python `str.split()` with no arguments: split on runs of
whitespace, discarding empty pieces.  `" ".split()` is `[]`. -/
def pySplitWs (s : String) : List String :=
  ((splitChars Char.isWhitespace s.data).map String.mk).filter (fun p => p ≠ "")

/-- Model of Python `s.replace(old, new)` when `old` is one character. -/
def pyReplaceChar (old : Char) (new : String) (s : String) : String :=
  String.mk (s.data.foldr (fun c acc => if c = old then new.data ++ acc else c :: acc) [])

/-- Model of the Python `in` operator for one character. -/
def pyContainsChar (c : Char) (s : String) : Bool := s.data.any (fun x => x = c)

/-- Model of Python `s.endswith(suffix)`. -/
def pyEndsWith (suffix s : String) : Bool :=
  listLeads suffix.data.reverse s.data.reverse

/-- Value of an all-digit character list read as a decimal number. -/
def digitsToNat (l : List Char) : Nat := l.foldl (fun a c => a * 10 + (c.toNat - 48)) 0

/-- Model of Python `s.startswith(pre)`. -/
def pyStartsWith (pre s : String) : Bool := listLeads pre.data s.data

/-- Model of Python slicing `s[n:]`. -/
def pyDropLeft (n : Nat) (s : String) : String := String.mk (s.data.drop n)

/-- Exceptions that can escape the embedded code. -/
inductive PyErr where
  | indexError : PyErr
  | valueError : PyErr
deriving DecidableEq

instance {ε α : Type} [DecidableEq ε] [DecidableEq α] : DecidableEq (Except ε α) :=
  fun a b =>
    match a, b with
    | .ok x, .ok y => if h : x = y then .isTrue (by rw [h]) else .isFalse (by simp [h])
    | .error x, .error y => if h : x = y then .isTrue (by rw [h]) else .isFalse (by simp [h])
    | .ok _, .error _ => .isFalse (by simp)
    | .error _, .ok _ => .isFalse (by simp)

/-- `clean_phone` (pixelcleaner.py:19-39): reject null sentinels, keep
only digits, strip leading zeros, drop a leading `1` when longer than 10
digits, then a leading `91`/`92` when still longer than 10 digits, and
accept exactly the results of length 7 to 15. -/
def clean_phone (phone : String) : Option String :=
  if phone = "" ∨ pyLower phone ∈ ["null", "undefined", "nan", ""] then none
  else
    let cleaned := String.mk (phone.data.filter Char.isDigit)
    let cleaned := String.mk (cleaned.data.dropWhile (fun c => c = '0'))
    let cleaned :=
      if 10 < cleaned.length ∧ pyStartsWith "1" cleaned then pyDropLeft 1 cleaned
      else cleaned
    let cleaned :=
      if 10 < cleaned.length ∧ (pyStartsWith "91" cleaned ∨ pyStartsWith "92" cleaned) then
        pyDropLeft 2 cleaned
      else cleaned
    if 7 ≤ cleaned.length ∧ cleaned.length ≤ 15 then some cleaned
    else none

/-- `clean_email` (pixelcleaner.py:42-51): trim, lowercase, accept when
the value contains `@` and `.` and is longer than 5 characters. -/
def clean_email (email : String) : Option String :=
  if email = "" then none
  else
    let e := pyLower (pyStrip email)
    if pyContainsChar '@' e ∧ pyContainsChar '.' e ∧ 5 < e.length then some e
    else none

/-- Delimiters of `extract_multiple`: comma, semicolon, pipe, newline,
carriage return. -/
def isMultiDelim (c : Char) : Bool :=
  c = ',' ∨ c = ';' ∨ c = '|' ∨ c = '\n' ∨ c = '\r'

/-- `extract_multiple` (pixelcleaner.py:54-61): split a cell on runs of
delimiters, trim each piece, and drop pieces that are empty or a null
sentinel. -/
def extract_multiple (value : String) : List String :=
  if value = "" then []
  else
    (((splitChars isMultiDelim value.data).map String.mk).map pyStrip).filter
      (fun v => v ≠ "" ∧ pyLower v ∉ ["null", "undefined", "nan"])

/-- `clean_value` (pixelcleaner.py:64-68): trim and replace commas with
spaces; empty input yields the empty string. -/
def clean_value (value : String) : String :=
  if value = "" then "" else pyReplaceChar ',' " " (pyStrip value)

/-- The fixed consumer-mail-provider list of `is_personal_email`. -/
def personal_domains : List String :=
  ["gmail.com", "yahoo.com", "hotmail.com", "outlook.com",
   "aol.com", "icloud.com", "me.com", "mac.com", "msn.com",
   "live.com", "protonmail.com", "mail.com", "zoho.com"]

/-- `is_personal_email` (pixelcleaner.py:71-77): true when any listed
consumer domain occurs as a substring of the lowercased email. -/
def is_personal_email (email : String) : Bool :=
  let email_lower := pyLower email
  personal_domains.any (fun d => listOccurs d.data email_lower.data)

/-- A parsed `datetime` value.  Only construction success and list
length are observable downstream, so the timezone is kept as an offset
in minutes. -/
structure DateTime where
  year : Nat
  month : Nat
  day : Nat
  hour : Nat
  minute : Nat
  second : Nat
  microsecond : Nat
  tzOffsetMinutes : Option Int
deriving DecidableEq

/-- Read exactly `n` leading digits of `l` as a number, returning the
value and the remaining characters. -/
def readFixedDigits (n : Nat) (l : List Char) : Option (Nat × List Char) :=
  let pre := l.take n
  if pre.length = n ∧ pre.all Char.isDigit then
    some (pre.foldl (fun a c => a * 10 + (c.toNat - 48)) 0, l.drop n)
  else none

/-- Leap-year rule used by `datetime`. -/
def isLeap (y : Nat) : Bool := (y % 4 = 0 ∧ y % 100 ≠ 0) ∨ y % 400 = 0

/-- Days in a month, as validated by the `datetime` constructor. -/
def daysInMonth (y m : Nat) : Nat :=
  if m = 2 then (if isLeap y then 29 else 28)
  else if m ∈ [1, 3, 5, 7, 8, 10, 12] then 31 else 30

/-- Model of CPython `_parse_hh_mm_ss_ff`: `HH[:MM[:SS[.fff[fff]]]]`
with the range checks the `datetime` constructor performs. -/
def parseHMSF (l : List Char) : Option (Nat × Nat × Nat × Nat) :=
  match readFixedDigits 2 l with
  | none => none
  | some (h, r1) =>
    if 23 < h then none
    else
      match r1 with
      | [] => some (h, 0, 0, 0)
      | ':' :: r2 =>
        match readFixedDigits 2 r2 with
        | none => none
        | some (m, r3) =>
          if 59 < m then none
          else
            match r3 with
            | [] => some (h, m, 0, 0)
            | ':' :: r4 =>
              match readFixedDigits 2 r4 with
              | none => none
              | some (s, r5) =>
                if 59 < s then none
                else
                  match r5 with
                  | [] => some (h, m, s, 0)
                  | '.' :: r6 =>
                    match readFixedDigits 6 r6 with
                    | some (us, []) => some (h, m, s, us)
                    | _ =>
                      match readFixedDigits 3 r6 with
                      | some (ms, []) => some (h, m, s, ms * 1000)
                      | _ => none
                  | _ => none
            | _ => none
      | _ => none

/-- Index of the first timezone sign character, following CPython's
`tstr.find('-') + 1 or tstr.find('+') + 1` (a `-` anywhere wins over an
earlier `+`). -/
def tzSignSplit (l : List Char) : Option (List Char × Bool × List Char) :=
  match l.findIdx? (fun c => c = '-') with
  | some i => some (l.take i, true, l.drop (i + 1))
  | none =>
    match l.findIdx? (fun c => c = '+') with
    | some i => some (l.take i, false, l.drop (i + 1))
    | none => none

/-- Model of Python `datetime.fromisoformat` for the shapes this program
feeds it: `YYYY-MM-DD` optionally followed by one separator character,
a time `HH[:MM[:SS[.fff[fff]]]]`, and an optional `±HH:MM` offset. -/
def fromisoformat (s : String) : Option DateTime :=
  match readFixedDigits 4 s.data with
  | none => none
  | some (y, r1) =>
    match r1 with
    | '-' :: r2 =>
      match readFixedDigits 2 r2 with
      | none => none
      | some (mo, r3) =>
        match r3 with
        | '-' :: r4 =>
          match readFixedDigits 2 r4 with
          | none => none
          | some (d, r5) =>
            if 1 ≤ y ∧ 1 ≤ mo ∧ mo ≤ 12 ∧ 1 ≤ d ∧ d ≤ daysInMonth y mo then
              match r5 with
              | [] => some ⟨y, mo, d, 0, 0, 0, 0, none⟩
              | _ :: tstr =>
                match tzSignSplit tstr with
                | none =>
                  match parseHMSF tstr with
                  | some (h, mi, se, us) => some ⟨y, mo, d, h, mi, se, us, none⟩
                  | none => none
                | some (timePart, neg, tzPart) =>
                  match parseHMSF timePart with
                  | none => none
                  | some (h, mi, se, us) =>
                    match tzPart with
                    | [a, b, ':', c, e] =>
                      match readFixedDigits 2 [a, b], readFixedDigits 2 [c, e] with
                      | some (th, []), some (tm, []) =>
                        if th ≤ 23 ∧ tm ≤ 59 then
                          let off : Int := (th * 60 + tm : Nat)
                          some ⟨y, mo, d, h, mi, se, us,
                                some (if neg then -off else off)⟩
                        else none
                      | _, _ => none
                    | _ => none
            else none
        | _ => none
    | _ => none

/-- `parse_timestamp` (pixelcleaner.py:80-97): ISO strings containing a
`T` only; `Z` is rewritten to `+00:00`, and when the rewritten string
does not end in `+00:00` the portion before the first `Z` is parsed
instead.  Every failure is swallowed into `none`. -/
def parse_timestamp (timestamp : String) : Option DateTime :=
  if timestamp = "" then none
  else if pyContainsChar 'T' timestamp then
    let timestamp_clean := pyReplaceChar 'Z' "+00:00" timestamp
    if pyEndsWith "+00:00" timestamp_clean then fromisoformat timestamp_clean
    else fromisoformat ((pySplitOnChar 'Z' timestamp).headD "")
  else none

/-- `calculate_estimated_time_spent` (pixelcleaner.py:100-148).  The
Python floats `6.5 * 60` and `12.5 * 60` are exactly `390.0` and
`750.0`, and every later `int(...)` conversion is exact, so the seconds
are modelled as `Nat`. -/
def calculate_estimated_time_spent (timestamps : List DateTime) : String :=
  if timestamps.isEmpty then ""
  else
    let num_events := timestamps.length
    let estimated_seconds : Nat :=
      if num_events = 1 then 30
      else if num_events = 2 then 60
      else if num_events ≤ 5 then 3 * 60
      else if num_events ≤ 10 then 390
      else 750
    if estimated_seconds < 60 then toString estimated_seconds ++ " seconds"
    else if estimated_seconds < 3600 then
      let minutes := estimated_seconds / 60
      let seconds := estimated_seconds % 60
      if 0 < seconds then
        toString minutes ++ " minutes " ++ toString seconds ++ " seconds"
      else toString minutes ++ " minutes"
    else
      let hours := estimated_seconds / 3600
      let minutes := (estimated_seconds % 3600) / 60
      toString hours ++ " hours " ++ toString minutes ++ " minutes"

/-- Model of `datetime.strptime(s, "%Y-%m-%d")` succeeding: a 4-digit
year, a 1-2 digit month in 1..12, a 1-2 digit day in 1..31, joined by
single dashes with nothing left over, and a day valid for the month. -/
def validYMD (s : String) : Bool :=
  match pySplitOnChar '-' s with
  | [ys, ms, ds] =>
    (ys.length = 4 ∧ ys.data.all Char.isDigit) ∧
    (1 ≤ ms.length ∧ ms.length ≤ 2 ∧ ms.data.all Char.isDigit) ∧
    (1 ≤ ds.length ∧ ds.length ≤ 2 ∧ ds.data.all Char.isDigit) ∧
    (let y := digitsToNat ys.data
     let m := digitsToNat ms.data
     let d := digitsToNat ds.data
     1 ≤ m ∧ m ≤ 12 ∧ 1 ≤ d ∧ d ≤ daysInMonth y m)
  | _ => false

/-- `extract_date_from_timestamp` (pixelcleaner.py:151-166).  The
`try` body either returns the `T`-prefix (validated via `strptime`) or
the first whitespace-separated token; the bare `except` runs the same
whitespace split, so a whitespace-only timestamp raises `IndexError`
out of the function. -/
def extract_date_from_timestamp (timestamp : String) : Except PyErr String :=
  if timestamp = "" then .ok ""
  else
    let tryResult : Except PyErr String :=
      if pyContainsChar 'T' timestamp then
        let date_part := (pySplitOnChar 'T' timestamp).headD ""
        if validYMD date_part then .ok date_part else .error .valueError
      else
        match pySplitWs timestamp with
        | [] => .error .indexError
        | t :: _ => .ok t
    match tryResult with
    | .ok r => .ok r
    | .error _ =>
      match pySplitWs timestamp with
      | [] => .error .indexError
      | t :: _ => .ok t

/-- `get_interest_level` (pixelcleaner.py:169-176). -/
def get_interest_level (occurrence_count : Nat) : String :=
  if 4 < occurrence_count then "Highly Interested"
  else if 2 ≤ occurrence_count then "Medium"
  else "Not Interested"

/-- An input row: the `csv.DictReader` mapping from column name to cell
value, as an association list. -/
def Row := List (String × String)

/-- Model of `row.get(k, '')`: the cell under column `k`, or the empty
string when the column is absent. -/
def Row.get (row : Row) (k : String) : String := (List.lookup k row).getD ""

/-- The per-person accumulator: the defaultdict value shape of
`process_csv` (pixelcleaner.py:184-201). -/
structure Person where
  FIRST_NAME : String
  LAST_NAME : String
  DATE : String
  ADDRESS : String
  CITY : String
  STATE : String
  ZIP : String
  direct_phones : List String
  mobile_phones : List String
  personal_phones : List String
  direct_dnc_flags : List String
  personal_email : String
  business_email : String
  linkedin_url : String
  occurrence_count : Nat
  timestamps : List DateTime
deriving DecidableEq

/-- The defaultdict default: all scalars empty, all lists empty. -/
def emptyPerson : Person :=
  ⟨"", "", "", "", "", "", "", [], [], [], [], "", "", "", 0, []⟩

/-- Line 232: increment the occurrence counter. -/
def updateOccurrence (p : Person) : Person :=
  { p with occurrence_count := p.occurrence_count + 1 }

/-- Lines 235-237: store the raw display names on first occurrence
(guarded only on `FIRST_NAME` being empty). -/
def updateNames (row : Row) (p : Person) : Person :=
  if p.FIRST_NAME = "" then
    { p with FIRST_NAME := row.get "FIRST_NAME", LAST_NAME := row.get "LAST_NAME" }
  else p

/-- Lines 240-243: extract the date from the first nonempty activity
timestamp; `extract_date_from_timestamp` can raise. -/
def updateDate (row : Row) (p : Person) : Except PyErr Person :=
  if p.DATE = "" then
    let activity_date := pyOr (row.get "ACTIVITY_START_DATE") (row.get "ActivityStartDate")
    if activity_date ≠ "" then
      match extract_date_from_timestamp activity_date with
      | .ok d => .ok { p with DATE := d }
      | .error e => .error e
    else .ok p
  else .ok p

/-- Lines 246-250: append every parsable timestamp. -/
def updateTimestamps (row : Row) (p : Person) : Person :=
  let timestamp_str := pyOr (row.get "ACTIVITY_START_DATE") (row.get "EVENT_TIMESTAMP")
  if timestamp_str ≠ "" then
    match parse_timestamp timestamp_str with
    | some t => { p with timestamps := p.timestamps ++ [t] }
    | none => p
  else p

/-- Lines 253-256: LinkedIn URL, first occurrence. -/
def updateLinkedin (row : Row) (p : Person) : Person :=
  if p.linkedin_url = "" then
    let linkedin := pyStrip (row.get "LINKEDIN_URL")
    if linkedin ≠ "" then { p with linkedin_url := linkedin } else p
  else p

/-- Lines 259-266: address components, each first-wins. -/
def updateAddress (row : Row) (p : Person) : Person :=
  let p := if p.ADDRESS = "" then { p with ADDRESS := clean_value (row.get "PERSONAL_ADDRESS") } else p
  let p := if p.CITY = "" then { p with CITY := clean_value (row.get "PERSONAL_CITY") } else p
  let p := if p.STATE = "" then { p with STATE := clean_value (row.get "PERSONAL_STATE") } else p
  if p.ZIP = "" then { p with ZIP := clean_value (row.get "PERSONAL_ZIP") } else p

/-- The loop `for i, phone_str in enumerate(phones)` of lines 274-280:
clean each candidate, append it (and the DNC flag at the same candidate
index, empty when the DNC list is shorter) unless already present. -/
def addDirectLoop (dnc_flags : List String) : Nat → List String → List String × List String → List String × List String
  | _, [], acc => acc
  | i, c :: cs, (ph, fl) =>
    addDirectLoop dnc_flags (i + 1) cs
      (match clean_phone c with
       | some cp =>
         if cp ∈ ph then (ph, fl)
         else (ph ++ [cp], fl ++ [((dnc_flags.get? i).map pyUpper).getD ""])
       | none => (ph, fl))

/-- The DNC flag candidate list of lines 272-273. -/
def directDncList (row : Row) : List String :=
  let direct_dnc := pyUpper (pyStrip (row.get "DIRECT_NUMBER_DNC"))
  if direct_dnc ≠ "" then extract_multiple direct_dnc else []

/-- Lines 268-280: collect phones (and index-aligned DNC flags) from
`DIRECT_NUMBER`. -/
def updateDirectPhones (row : Row) (p : Person) : Person :=
  let direct_number := row.get "DIRECT_NUMBER"
  if direct_number ≠ "" then
    let phones := extract_multiple direct_number
    let res := addDirectLoop (directDncList row) 0 phones (p.direct_phones, p.direct_dnc_flags)
    { p with direct_phones := res.1, direct_dnc_flags := res.2 }
  else p

/-- The loop of lines 286-289 and 295-298: clean each candidate and
append it unless already present. -/
def addPhonesLoop : List String → List String → List String
  | [], ph => ph
  | c :: cs, ph =>
    addPhonesLoop cs
      (match clean_phone c with
       | some cp => if cp ∈ ph then ph else ph ++ [cp]
       | none => ph)

/-- Lines 283-289: collect phones from `MOBILE_PHONE`. -/
def updateMobilePhones (row : Row) (p : Person) : Person :=
  let mobile_number := row.get "MOBILE_PHONE"
  if mobile_number ≠ "" then
    { p with mobile_phones := addPhonesLoop (extract_multiple mobile_number) p.mobile_phones }
  else p

/-- Lines 292-298: collect phones from `PERSONAL_PHONE`. -/
def updatePersonalPhones (row : Row) (p : Person) : Person :=
  let personal_number := row.get "PERSONAL_PHONE"
  if personal_number ≠ "" then
    { p with personal_phones := addPhonesLoop (extract_multiple personal_number) p.personal_phones }
  else p

/-- The body of the `for email_str in emails` loop over
`PERSONAL_EMAILS` (lines 316-324): classify a valid candidate by domain
and fill whichever matching slot is still empty. -/
def emailStep (p : Person) (e : String) : Person :=
  match clean_email e with
  | some ce =>
    if is_personal_email ce then
      if p.personal_email = "" then { p with personal_email := ce } else p
    else
      if p.business_email = "" then { p with business_email := ce } else p
  | none => p

/-- Lines 302-310: `BUSINESS_EMAIL` — the first valid candidate fills a
still-empty business slot (the loop breaks at the first success). -/
def emailsBusiness (row : Row) (p : Person) : Person :=
  let business_email_val := row.get "BUSINESS_EMAIL"
  if business_email_val ≠ "" ∧ p.business_email = "" then
    match (extract_multiple business_email_val).findSome? clean_email with
    | some ce => { p with business_email := ce }
    | none => p
  else p

/-- Lines 312-324: `PERSONAL_EMAILS` — every candidate is classified
and routed by `emailStep`. -/
def emailsPersonal (row : Row) (p : Person) : Person :=
  let personal_emails_val := row.get "PERSONAL_EMAILS"
  if personal_emails_val ≠ "" then (extract_multiple personal_emails_val).foldl emailStep p
  else p

/-- Lines 326-335: `BUSINESS_VERIFIED_EMAILS` — the first valid
non-personal candidate fills a still-empty business slot. -/
def emailsVerified (row : Row) (p : Person) : Person :=
  if p.business_email = "" then
    let business_verified := row.get "BUSINESS_VERIFIED_EMAILS"
    if business_verified ≠ "" then
      match (extract_multiple business_verified).findSome?
          (fun e =>
            match clean_email e with
            | some ce => if ¬ is_personal_email ce then some ce else none
            | none => none) with
      | some ce => { p with business_email := ce }
      | none => p
    else p
  else p

/-- Lines 301-335: email extraction.  `BUSINESS_EMAIL` first, then
`PERSONAL_EMAILS`, then `BUSINESS_VERIFIED_EMAILS`, all guarded by at
least one email slot still being empty. -/
def updateEmails (row : Row) (p : Person) : Person :=
  if p.personal_email = "" ∨ p.business_email = "" then
    emailsVerified row (emailsPersonal row (emailsBusiness row p))
  else p

/-- One row applied to one accumulator: the body of the `for row in
reader` loop after the identity check (pixelcleaner.py:231-335). -/
def stepPerson (row : Row) (p : Person) : Except PyErr Person :=
  match updateDate row (updateNames row (updateOccurrence p)) with
  | .error e => .error e
  | .ok p =>
    .ok (updateEmails row
          (updatePersonalPhones row
            (updateMobilePhones row
              (updateDirectPhones row
                (updateAddress row
                  (updateLinkedin row
                    (updateTimestamps row p)))))))

/-- The identity key of a row (lines 222-228), `none` when either
normalized name component is empty (the row is skipped). -/
def rowKey (row : Row) : Option String :=
  let first_name := pyUpper (clean_value (row.get "FIRST_NAME"))
  let last_name := pyUpper (clean_value (row.get "LAST_NAME"))
  if first_name = "" ∨ last_name = "" then none
  else some (first_name ++ "|" ++ last_name)

/-- Replace the binding of `k` in place, or append it: the effect of
mutating a `defaultdict` entry while preserving dict insertion order. -/
def mapSet : List (String × Person) → String → Person → List (String × Person)
  | [], k, p => [(k, p)]
  | (k', p') :: rest, k, p =>
    if k' = k then (k, p) :: rest else (k', p') :: mapSet rest k p

/-- Progress and summary lines printed by `process_csv`, abstracted
from their literal text. -/
inductive LogMsg where
  | activated : LogMsg
  | readingInput : LogMsg
  | errorNoHeaders : LogMsg
  | foundColumns : Nat → LogMsg
  | progress : Nat → LogMsg
  | processedRows : Nat → LogMsg
  | foundUnique : Nat → LogMsg
  | writingOutput : LogMsg
  | warningNoOutput : LogMsg
  | returningRows : Nat → LogMsg
  | done : LogMsg
deriving DecidableEq

/-- The mutable state of the reading loop: the row counter, the log so
far, and the insertion-ordered people map. -/
structure RunState where
  row_count : Nat
  log : List LogMsg
  people : List (String × Person)
deriving DecidableEq

/-- One iteration of `for row in reader` (pixelcleaner.py:217-335). -/
def stepState (st : RunState) (row : Row) : Except PyErr RunState :=
  let row_count := st.row_count + 1
  let log :=
    if row_count % 1000 = 0 then st.log ++ [LogMsg.progress row_count] else st.log
  match rowKey row with
  | none => .ok { st with row_count := row_count, log := log }
  | some key =>
    let person := ((st.people.lookup key).getD emptyPerson)
    match stepPerson row person with
    | .error e => .error e
    | .ok q => .ok ⟨row_count, log, mapSet st.people key q⟩

/-- The whole reading loop over the data rows. -/
def processRows (st : RunState) (rows : List Row) : Except PyErr RunState :=
  rows.foldlM stepState st

/-- One finalized output row (lines 376-393). -/
structure OutputRow where
  date : String
  firstName : String
  lastName : String
  address : String
  city : String
  stateField : String
  zip : String
  directPhone : String
  mobilePhone : String
  personalPhone : String
  personalEmail : String
  businessEmail : String
  linkedinUrl : String
  duplicateOccurrences : String
  estimatedTimeSpent : String
  interestLevel : String
deriving DecidableEq

/-- The output projection of one accumulator (lines 343-395): first
direct phone and flag, a mobile phone preferring one distinct from the
direct phone, a personal phone preferring one distinct from both. -/
def projectPerson (p : Person) : OutputRow :=
  let direct_phone := p.direct_phones.headD ""
  -- Line 346 also computes `phone_dnc = person['direct_dnc_flags'][0]`,
  -- but no key of the output_row dict (lines 376-393) uses it: the
  -- fixed output schema carries no DNC column, so the local is dead.
  let mobile_phone :=
    match p.mobile_phones.find? (fun ph => ph ≠ direct_phone) with
    | some ph => ph
    | none => p.mobile_phones.headD ""
  let personal_phone :=
    match p.personal_phones.find? (fun ph => ph ≠ direct_phone ∧ ph ≠ mobile_phone) with
    | some ph => ph
    | none => p.personal_phones.headD ""
  { date := p.DATE
    firstName := p.FIRST_NAME
    lastName := p.LAST_NAME
    address := p.ADDRESS
    city := p.CITY
    stateField := p.STATE
    zip := p.ZIP
    directPhone := direct_phone
    mobilePhone := mobile_phone
    personalPhone := personal_phone
    personalEmail := p.personal_email
    businessEmail := p.business_email
    linkedinUrl := p.linkedin_url
    duplicateOccurrences := toString p.occurrence_count
    estimatedTimeSpent := calculate_estimated_time_spent p.timestamps
    interestLevel := get_interest_level p.occurrence_count }

/-- The observable result of one `process_csv` run: the output file's
rows when one was written, plus the log. -/
structure RunResult where
  output : Option (List OutputRow)
  log : List LogMsg
deriving DecidableEq

/-- The starting state of the reading loop for a given header. -/
def initState (fieldnames : List String) : RunState :=
  ⟨0, [LogMsg.activated, LogMsg.readingInput, LogMsg.foundColumns fieldnames.length], []⟩

/-- `process_csv` (pixelcleaner.py:179-429).  `fieldnames = []` models
`reader.fieldnames` being `None` or empty (`if not fieldnames`); the
function then returns early having written nothing.  An empty people
map also returns early with a warning and no file. -/
def processCsv (fieldnames : List String) (rows : List Row) : Except PyErr RunResult :=
  if fieldnames = [] then
    .ok ⟨none, [LogMsg.activated, LogMsg.readingInput, LogMsg.errorNoHeaders]⟩
  else
    match processRows (initState fieldnames) rows with
    | .error e => .error e
    | .ok st =>
      let log := st.log ++ [LogMsg.processedRows st.row_count,
                            LogMsg.foundUnique st.people.length]
      let output_rows := st.people.map (fun kp => projectPerson kp.2)
      let log := log ++ [LogMsg.writingOutput]
      if output_rows = [] then .ok ⟨none, log ++ [LogMsg.warningNoOutput]⟩
      else .ok ⟨some output_rows,
                log ++ [LogMsg.returningRows output_rows.length, LogMsg.done]⟩

/-- `main` (pixelcleaner.py:432-448): an exception escaping
`process_csv` is caught and turned into exit code 1; otherwise the
process exits normally with code 0 whether or not a file was written. -/
def runExitCode (fieldnames : List String) (rows : List Row) : Nat :=
  match processCsv fieldnames rows with
  | .ok _ => 0
  | .error _ => 1

/-- Whether a run produced an output file. -/
def outputWritten (r : Except PyErr RunResult) : Bool :=
  match r with
  | .ok res => res.output.isSome
  | .error _ => false

/-- Everything the surrounding service code can observe from a run:
the process exit code and whether the output file exists.  (The Python
function itself always returns `None`.) -/
def callerOutcome (fieldnames : List String) (rows : List Row) : Nat × Bool :=
  (runExitCode fieldnames rows, outputWritten (processCsv fieldnames rows))

/-- The output rows a run emits ([] when no file is written or the run
aborts). -/
def outputRowsOf (fieldnames : List String) (rows : List Row) : List OutputRow :=
  match processCsv fieldnames rows with
  | .ok ⟨some out, _⟩ => out
  | _ => []

/-- The people map a run of the reading loop ends with ([] when the
loop raises). -/
def peopleAfter (fieldnames : List String) (rows : List Row) : List (String × Person) :=
  match processRows (initState fieldnames) rows with
  | .ok st => st.people
  | .error _ => []

/-- The accessors of a run's result. -/
def runOk (r : Except PyErr RunResult) : Bool := r.isOk

/-- The output-file content of a run result. -/
def runOutput (r : Except PyErr RunResult) : Option (List OutputRow) :=
  match r with
  | .ok res => res.output
  | .error _ => none

/-- The log of a run result. -/
def runLog (r : Except PyErr RunResult) : List LogMsg :=
  match r with
  | .ok res => res.log
  | .error _ => []

/-- Spec 4.1, step 1: "Strip every non-digit character." -/
def specDigits (raw : String) : List Char := raw.data.filter Char.isDigit

/-- Spec 4.1, step 2: "Strip leading zeros." -/
def specStripZeros (l : List Char) : List Char := l.dropWhile (fun c => c = '0')

/-- Spec 4.1, step 3: "If resulting length > 10 and the value starts
with digit 1, drop that leading 1." -/
def specDropTrunk (l : List Char) : List Char :=
  if 10 < l.length ∧ l.take 1 = ['1'] then l.drop 1 else l

/-- Spec 4.1, step 4: "If resulting length > 10 and starts with 91 or
92, drop those two leading digits." -/
def specDropCountry (l : List Char) : List Char :=
  if 10 < l.length ∧ (l.take 2 = ['9', '1'] ∨ l.take 2 = ['9', '2']) then l.drop 2 else l

/-- Spec 4.1 `normalizePhone`, assembled from the spec's words: reject
empty input and the case-insensitive null sentinels, run the four
digit-normalization steps, and accept exactly final lengths 7 to 15. -/
def normalizePhone_spec (raw : String) : Option String :=
  if raw = "" ∨ pyLower raw ∈ ["null", "undefined", "nan", ""] then none
  else
    let ds := specDropCountry (specDropTrunk (specStripZeros (specDigits raw)))
    if 7 ≤ ds.length ∧ ds.length ≤ 15 then some (String.mk ds) else none

/-- Spec 4.5: the fixed event-count-to-duration-bucket table, in
seconds: 1 event to 30s, 2 to 60s, 3-5 to 180s, 6-10 to 390s, 11+ to
750s. -/
def engagementBucketSeconds_spec (n : Nat) : Nat :=
  if n = 1 then 30
  else if n = 2 then 60
  else if 3 ≤ n ∧ n ≤ 5 then 180
  else if 6 ≤ n ∧ n ≤ 10 then 390
  else 750

/-- Spec 4.5: each bucket "rendered as a human string in
seconds/minutes/hours with minutes/seconds remainder shown when
nonzero, hours+minutes shown above 3600s". -/
def renderDuration_spec (secs : Nat) : String :=
  if secs < 60 then toString secs ++ " seconds"
  else if secs < 3600 then
    if 0 < secs % 60 then
      toString (secs / 60) ++ " minutes " ++ toString (secs % 60) ++ " seconds"
    else toString (secs / 60) ++ " minutes"
  else toString (secs / 3600) ++ " hours " ++ toString ((secs % 3600) / 60) ++ " minutes"

/-- Spec 4.5 `estimatedEngagement`: determined solely by the timestamp
count; zero events give the empty string. -/
def estimatedEngagement_spec (n : Nat) : String :=
  if n = 0 then "" else renderDuration_spec (engagementBucketSeconds_spec n)

/-- Keep the first occurrence of every value, preserving order
(accumulator form). -/
def dedupFirstAux : List String → List String → List String
  | [], acc => acc
  | x :: xs, acc => dedupFirstAux xs (if x ∈ acc then acc else acc ++ [x])

/-- Keep the first occurrence of every value, preserving order: the
"collect-all" merge policy of the spec. -/
def dedupFirst (l : List String) : List String := dedupFirstAux l []

/-- The (phone, flag) pairs one row's `DIRECT_NUMBER` cell contributes
beyond the phones in `seen`: each valid, not-yet-seen candidate paired
with the DNC flag at the same candidate index `i` (the empty string
when the DNC list is shorter), in candidate order. -/
def newDirectPairs (dnc_flags : List String) : Nat → List String → List String → List (String × String)
  | _, [], _ => []
  | i, c :: cs, seen =>
    match clean_phone c with
    | some cp =>
      if cp ∈ seen then newDirectPairs dnc_flags (i + 1) cs seen
      else (cp, ((dnc_flags.get? i).map pyUpper).getD "") ::
        newDirectPairs dnc_flags (i + 1) cs (seen ++ [cp])
    | none => newDirectPairs dnc_flags (i + 1) cs seen

/-- The normalized identity key recomputed from an accumulator's stored
display names. -/
def personKey (p : Person) : String :=
  pyUpper (clean_value p.FIRST_NAME) ++ "|" ++ pyUpper (clean_value p.LAST_NAME)

/-- The normalized identity key recomputed from an emitted output
row. -/
def outRowKey (o : OutputRow) : String :=
  pyUpper (clean_value o.firstName) ++ "|" ++ pyUpper (clean_value o.lastName)

/-- The DNC-flag list stored for key `k` (empty when `k` is absent). -/
def flagsAt (m : List (String × Person)) (k : String) : List String :=
  ((m.lookup k).getD emptyPerson).direct_dnc_flags

/-- The accumulator stored for key `k` after a run of the reading loop
(`emptyPerson` when `k` is absent or the loop raised). -/
def personAfter (fieldnames : List String) (rows : List Row) (k : String) : Person :=
  ((peopleAfter fieldnames rows).lookup k).getD emptyPerson

/-- Concrete witness row: a first occurrence of JOHN|DOE. -/
def rowW1 : Row :=
  [("FIRST_NAME", "John"), ("LAST_NAME", "Doe"),
   ("PERSONAL_ADDRESS", "1 Main St"), ("PERSONAL_CITY", "Springfield"),
   ("PERSONAL_STATE", "IL"), ("PERSONAL_ZIP", "62704"),
   ("DIRECT_NUMBER", "5551234567"), ("DIRECT_NUMBER_DNC", "Y"),
   ("MOBILE_PHONE", "5552223333"), ("PERSONAL_PHONE", "5554445555")]

/-- Concrete witness row: a later occurrence of JOHN|DOE with a
different address and an extra direct phone. -/
def rowW2 : Row :=
  [("FIRST_NAME", "john"), ("LAST_NAME", "DOE"),
   ("PERSONAL_ADDRESS", "2 Oak Ave"),
   ("DIRECT_NUMBER", "5559876543, 5551234567"), ("DIRECT_NUMBER_DNC", "N")]

/-- Concrete row whose direct phone carries DNC flag Y. -/
def rowDncY : Row :=
  [("FIRST_NAME", "A"), ("LAST_NAME", "B"),
   ("DIRECT_NUMBER", "5551234567"), ("DIRECT_NUMBER_DNC", "Y")]

/-- The same row with DNC flag N instead. -/
def rowDncN : Row :=
  [("FIRST_NAME", "A"), ("LAST_NAME", "B"),
   ("DIRECT_NUMBER", "5551234567"), ("DIRECT_NUMBER_DNC", "N")]

theorem listLeads_iff_take (pre l : List Char) :
    listLeads pre l = true ↔ l.take pre.length = pre := by
  induction pre generalizing l with
  | nil => simp [listLeads]
  | cons p ps ih =>
    cases l with
    | nil => simp [listLeads]
    | cons c cs =>
      simp only [listLeads, List.length_cons, List.take_succ_cons, Bool.and_eq_true,
        decide_eq_true_eq, List.cons.injEq, ih]
      tauto

theorem mk_length (l : List Char) : (String.mk l).length = l.length := rfl

theorem trunkStepStr (l : List Char) :
    (if 10 < l.length ∧ pyStartsWith "1" (String.mk l) then pyDropLeft 1 (String.mk l)
     else String.mk l)
      = String.mk (specDropTrunk l) := by
  unfold specDropTrunk pyStartsWith pyDropLeft
  by_cases h : 10 < l.length
  · by_cases h1 : l.take 1 = ['1']
    · have hb : listLeads "1".data (String.mk l).data = true :=
        (listLeads_iff_take "1".data l).mpr h1
      simp [h, h1, hb]
    · have hb : ¬ listLeads "1".data (String.mk l).data = true :=
        fun hh => h1 ((listLeads_iff_take "1".data l).mp hh)
      simp [h, h1, hb]
  · simp [h]

theorem countryStepStr (l : List Char) :
    (if 10 < l.length ∧ (pyStartsWith "91" (String.mk l) ∨ pyStartsWith "92" (String.mk l)) then
      pyDropLeft 2 (String.mk l)
     else String.mk l)
      = String.mk (specDropCountry l) := by
  unfold specDropCountry pyStartsWith pyDropLeft
  by_cases h : 10 < l.length
  · by_cases h1 : l.take 2 = ['9', '1'] ∨ l.take 2 = ['9', '2']
    · have hb : listLeads "91".data (String.mk l).data = true ∨
          listLeads "92".data (String.mk l).data = true := by
        rcases h1 with h1 | h1
        · exact Or.inl ((listLeads_iff_take "91".data l).mpr h1)
        · exact Or.inr ((listLeads_iff_take "92".data l).mpr h1)
      simp [h, h1, hb]
    · have hb1 : ¬ listLeads "91".data (String.mk l).data = true :=
        fun hh => h1 (Or.inl ((listLeads_iff_take "91".data l).mp hh))
      have hb2 : ¬ listLeads "92".data (String.mk l).data = true :=
        fun hh => h1 (Or.inr ((listLeads_iff_take "92".data l).mp hh))
      simp [h, h1, hb1, hb2]
  · simp [h]

theorem clean_phone_eq_spec (s : String) : clean_phone s = normalizePhone_spec s := by
  unfold clean_phone normalizePhone_spec
  split
  · rfl
  · dsimp only
    simp only [mk_length]
    rw [trunkStepStr]
    simp only [mk_length]
    rw [countryStepStr]
    rfl

/-- C2: for every raw string, `clean_phone` rejects empty input and the
null sentinels and otherwise runs exactly the spec's digit pipeline
(strip non-digits, strip leading zeros, drop a leading 1 when longer
than 10 digits, then a leading 91/92 when still longer than 10 digits,
accept exactly final lengths 7 to 15); in particular the spec's three
worked examples hold. -/
theorem C2_normalizePhone_pipeline :
    (∀ s : String, clean_phone s = normalizePhone_spec s)
    ∧ clean_phone "+1 (555) 123-4567" = some "5551234567"
    ∧ clean_phone "abc" = none
    ∧ clean_phone "123" = none :=
  ⟨clean_phone_eq_spec, by decide, by decide, by decide⟩

/-- C9: the estimated-engagement string depends only on the number of
collected timestamps, through the fixed bucket table (0 events give the
empty string, 1 gives 30s, 2 gives 60s, 3-5 give 180s, 6-10 give 390s,
11+ give 750s) rendered with the minutes/seconds remainder shown when
nonzero and hours+minutes above 3600 seconds. -/
theorem C9_engagement_bucket (ts : List DateTime) :
    calculate_estimated_time_spent ts = estimatedEngagement_spec ts.length := by
  unfold calculate_estimated_time_spent estimatedEngagement_spec
  unfold engagementBucketSeconds_spec renderDuration_spec
  cases ts with
  | nil => rfl
  | cons a l =>
    have hne : (a :: l).isEmpty = false := rfl
    simp only [hne, Bool.false_eq_true, if_false, List.length_cons]
    have h0 : ¬ (l.length + 1 = 0) := by omega
    by_cases h1 : l.length + 1 = 1
    · simp [h0, h1]
    · by_cases h2 : l.length + 1 = 2
      · simp [h0, h1, h2]
      · by_cases h5 : l.length + 1 ≤ 5
        · have h3 : 3 ≤ l.length + 1 := by omega
          simp [h0, h1, h2, h5, h3]
        · by_cases h10 : l.length + 1 ≤ 10
          · have h6 : 6 ≤ l.length + 1 := by omega
            simp [h0, h1, h2, h5, h6, h10]
          · simp [h0, h1, h2, h5, h10]

/-- C5 (counterexample): on an input with a missing/empty header row,
everything the caller can observe (exit code 0, no output file) is
identical to a successful zero-output run, so no failure signal
distinct from success is delivered. -/
theorem C5_counterexample :
    callerOutcome [] [[("FIRST_NAME", "John"), ("LAST_NAME", "Doe")]]
      = callerOutcome ["FIRST_NAME", "LAST_NAME"] []
    ∧ callerOutcome [] [[("FIRST_NAME", "John"), ("LAST_NAME", "Doe")]] = (0, false) := by
  decide

/-- C5 (amended): with a missing or empty header row the run returns
before touching any data row, writes no output file and logs the
offending condition, but it completes with the same caller-visible
outcome as a success: a normal return and exit code 0. -/
theorem C5_no_header_aborts (rows : List Row) :
    processCsv [] rows
      = .ok ⟨none, [LogMsg.activated, LogMsg.readingInput, LogMsg.errorNoHeaders]⟩
    ∧ runExitCode [] rows = 0 := by
  constructor
  · rfl
  · rfl

/-- C4: the claim "per-row data-quality defects are never fatal" fails
on the code: a whitespace-only `ACTIVITY_START_DATE` makes
`extract_date_from_timestamp` raise `IndexError` from both its `try`
body and its bare `except` handler, aborting the whole run before any
later row and leaving no output. -/
theorem C4_whitespace_timestamp_fatal :
    extract_date_from_timestamp " " = .error .indexError
    ∧ processCsv ["FIRST_NAME", "LAST_NAME", "ACTIVITY_START_DATE"]
        [[("FIRST_NAME", "A"), ("LAST_NAME", "B"), ("ACTIVITY_START_DATE", " ")],
         [("FIRST_NAME", "C"), ("LAST_NAME", "D")]]
      = .error .indexError
    ∧ runExitCode ["FIRST_NAME", "LAST_NAME", "ACTIVITY_START_DATE"]
        [[("FIRST_NAME", "A"), ("LAST_NAME", "B"), ("ACTIVITY_START_DATE", " ")],
         [("FIRST_NAME", "C"), ("LAST_NAME", "D")]] = 1 := by
  decide

theorem stepState_skip (st : RunState) (row : Row) (h : rowKey row = none) :
    ∃ st', stepState st row = .ok st' ∧ st'.people = st.people := by
  unfold stepState
  rw [h]
  exact ⟨_, rfl, rfl⟩

theorem processRows_all_skipped (rows : List Row) (st : RunState)
    (h : ∀ r ∈ rows, rowKey r = none) :
    ∃ st', processRows st rows = .ok st' ∧ st'.people = st.people := by
  induction rows generalizing st with
  | nil => exact ⟨st, rfl, rfl⟩
  | cons r rs ih =>
    have hr : rowKey r = none := h r (by simp)
    have hrs : ∀ x ∈ rs, rowKey x = none := fun x hx => h x (by simp [hx])
    obtain ⟨st1, hstep, hp1⟩ := stepState_skip st r hr
    obtain ⟨st', hst, hp⟩ := ih st1 hrs
    refine ⟨st', ?_, by rw [hp, hp1]⟩
    unfold processRows at hst ⊢
    rw [List.foldlM_cons, hstep]
    exact hst

/-- C7: when the header is present but every data row lacks a valid
identity key (in particular when there are no data rows), the run
completes successfully, writes no output file, and logs the zero-output
warning. -/
theorem C7_zero_output_noop (fieldnames : List String) (rows : List Row)
    (hh : fieldnames ≠ []) (hr : ∀ r ∈ rows, rowKey r = none) :
    runOk (processCsv fieldnames rows) = true
    ∧ runOutput (processCsv fieldnames rows) = none
    ∧ LogMsg.warningNoOutput ∈ runLog (processCsv fieldnames rows) := by
  obtain ⟨st', hst, hpeople⟩ := processRows_all_skipped rows (initState fieldnames) hr
  have hpe : st'.people = [] := hpeople
  unfold processCsv
  simp [hh, hst, hpe, runOk, runOutput, runLog, Except.isOk, Except.toBool]

/-- C7 witness: a run over one identity-free data row under a nonempty
header is a successful warning no-op. -/
theorem C7_zero_output_noop_witness :
    runOk (processCsv ["FIRST_NAME"] [[("X", "1")]]) = true
    ∧ runOutput (processCsv ["FIRST_NAME"] [[("X", "1")]]) = none
    ∧ LogMsg.warningNoOutput ∈ runLog (processCsv ["FIRST_NAME"] [[("X", "1")]]) :=
  C7_zero_output_noop ["FIRST_NAME"] [[("X", "1")]] (by decide) (by decide)

theorem exceptBindOk {α β : Type} {x : Except PyErr α} {g : α → Except PyErr β} {b : β}
    (h : (x >>= g) = .ok b) : ∃ a, x = .ok a ∧ g a = .ok b := by
  cases x with
  | ok a => exact ⟨a, rfl, h⟩
  | error e => exact absurd h (by simp [Bind.bind, Except.bind])

theorem addPhonesLoop_eq_dedupAux (cs : List String) :
    ∀ ph, addPhonesLoop cs ph = dedupFirstAux (cs.filterMap clean_phone) ph := by
  induction cs with
  | nil => intro ph; rfl
  | cons c cs ih =>
    intro ph
    unfold addPhonesLoop
    cases hc : clean_phone c with
    | none => simp only [hc, List.filterMap_cons, ih]
    | some cp =>
      simp only [hc, List.filterMap_cons, ih]
      rfl

theorem dedupFirstAux_append (a b acc : List String) :
    dedupFirstAux (a ++ b) acc = dedupFirstAux b (dedupFirstAux a acc) := by
  induction a generalizing acc with
  | nil => rfl
  | cons x xs ih =>
    simp only [List.cons_append, dedupFirstAux]
    exact ih _

theorem dedupFirstAux_nodup (l : List String) :
    ∀ acc, acc.Nodup → (dedupFirstAux l acc).Nodup := by
  induction l with
  | nil => intro acc h; exact h
  | cons x xs ih =>
    intro acc h
    unfold dedupFirstAux
    by_cases hm : x ∈ acc
    · simpa [hm] using ih acc h
    · have : (acc ++ [x]).Nodup := by
        rw [← List.concat_eq_append]
        exact h.concat hm
      simpa [hm] using ih (acc ++ [x]) this

theorem addDirectLoop_append (dnc : List String) (cs : List String) :
    ∀ i ph fl, addDirectLoop dnc i cs (ph, fl)
      = (ph ++ (newDirectPairs dnc i cs ph).map Prod.fst,
         fl ++ (newDirectPairs dnc i cs ph).map Prod.snd) := by
  induction cs with
  | nil => intro i ph fl; simp [addDirectLoop, newDirectPairs]
  | cons c cs ih =>
    intro i ph fl
    unfold addDirectLoop newDirectPairs
    cases hc : clean_phone c with
    | none => simp only [hc, ih]
    | some cp =>
      by_cases hm : cp ∈ ph
      · simp only [hc, hm, if_true, ih]
      · simp only [hc, hm, if_false, ih]
        simp [List.append_assoc]

theorem addDirectLoop_fst (dnc : List String) (cs : List String) (i : Nat)
    (ph fl : List String) :
    (addDirectLoop dnc i cs (ph, fl)).1 = addPhonesLoop cs ph := by
  induction cs generalizing i ph fl with
  | nil => rfl
  | cons c cs ih =>
    unfold addDirectLoop addPhonesLoop
    cases hc : clean_phone c with
    | none => simp only [hc]; exact ih _ _ _
    | some cp =>
      by_cases hm : cp ∈ ph
      · simp only [hc, hm, if_true]; exact ih _ _ _
      · simp only [hc, hm, if_false]; exact ih _ _ _

theorem mapSet_lookup_self (m : List (String × Person)) (k : String) (p : Person) :
    (mapSet m k p).lookup k = some p := by
  induction m with
  | nil => simp [mapSet, List.lookup]
  | cons kp rest ih =>
    obtain ⟨k', p'⟩ := kp
    unfold mapSet
    by_cases h : k' = k
    · simp [h, List.lookup]
    · have hne : (k == k') = false := by
        simp [beq_iff_eq]
        exact fun hh => h hh.symm
      simp [h, List.lookup, hne, ih]

theorem mapSet_lookup_ne (m : List (String × Person)) (k k' : String) (p : Person)
    (h : k' ≠ k) : (mapSet m k p).lookup k' = m.lookup k' := by
  induction m with
  | nil =>
    have hne : (k' == k) = false := by simp [beq_iff_eq, h]
    simp [mapSet, List.lookup, hne]
  | cons kp rest ih =>
    obtain ⟨k0, p0⟩ := kp
    unfold mapSet
    by_cases h0 : k0 = k
    · have hne : (k' == k) = false := by simp [beq_iff_eq, h]
      have hne0 : (k' == k0) = false := by simp [beq_iff_eq, h0, h]
      simp [h0, List.lookup, hne, hne0]
    · by_cases h1 : k' = k0
      · simp [h0, List.lookup, h1]
      · have hne1 : (k' == k0) = false := by simp [beq_iff_eq, h1]
        simp [h0, List.lookup, hne1, ih]

theorem mem_mapSet (m : List (String × Person)) (k : String) (p : Person)
    (x : String × Person) (h : x ∈ mapSet m k p) : x = (k, p) ∨ x ∈ m := by
  induction m with
  | nil => simpa [mapSet] using h
  | cons kp rest ih =>
    obtain ⟨k0, p0⟩ := kp
    unfold mapSet at h
    by_cases h0 : k0 = k
    · simp only [h0, if_true] at h
      rcases List.mem_cons.mp h with h | h
      · exact Or.inl h
      · exact Or.inr (List.mem_cons_of_mem _ h)
    · simp only [h0, if_false] at h
      rcases List.mem_cons.mp h with h | h
      · exact Or.inr (by simp [h])
      · rcases ih h with h | h
        · exact Or.inl h
        · exact Or.inr (List.mem_cons_of_mem _ h)

theorem mem_map_fst_mapSet (m : List (String × Person)) (k a : String) (p : Person)
    (h : a ∈ (mapSet m k p).map Prod.fst) : a ∈ m.map Prod.fst ∨ a = k := by
  rcases List.mem_map.mp h with ⟨x, hx, hfst⟩
  rcases mem_mapSet m k p x hx with h1 | h1
  · right; rw [← hfst, h1]
  · left; exact List.mem_map.mpr ⟨x, h1, hfst⟩

theorem mapSet_map_fst_nodup (m : List (String × Person)) (k : String) (p : Person)
    (h : (m.map Prod.fst).Nodup) : ((mapSet m k p).map Prod.fst).Nodup := by
  induction m with
  | nil => simp [mapSet]
  | cons kp rest ih =>
    obtain ⟨k0, p0⟩ := kp
    simp only [List.map_cons, List.nodup_cons] at h
    unfold mapSet
    by_cases h0 : k0 = k
    · simp only [h0, if_true, List.map_cons, List.nodup_cons]
      exact ⟨h0 ▸ h.1, h.2⟩
    · simp only [h0, if_false, List.map_cons, List.nodup_cons]
      refine ⟨fun hmem => ?_, ih h.2⟩
      rcases mem_map_fst_mapSet rest k k0 p hmem with h1 | h1
      · exact h.1 h1
      · exact h0 h1

theorem emailStep_shape (p : Person) (e : String) :
    emailStep p e
      = { p with personal_email := (emailStep p e).personal_email,
                 business_email := (emailStep p e).business_email } := by
  unfold emailStep
  cases clean_email e with
  | none => rfl
  | some ce =>
    dsimp only
    split_ifs <;> rfl

theorem foldl_emailStep_shape (l : List String) (p : Person) :
    l.foldl emailStep p
      = { p with personal_email := (l.foldl emailStep p).personal_email,
                 business_email := (l.foldl emailStep p).business_email } := by
  induction l generalizing p with
  | nil => rfl
  | cons e es ih =>
    rw [List.foldl_cons, ih (emailStep p e), emailStep_shape p e]

theorem emailsBusiness_shape (row : Row) (p : Person) :
    emailsBusiness row p
      = { p with business_email := (emailsBusiness row p).business_email } := by
  unfold emailsBusiness
  dsimp only
  split
  · split <;> rfl
  · rfl

theorem emailsPersonal_shape (row : Row) (p : Person) :
    emailsPersonal row p
      = { p with personal_email := (emailsPersonal row p).personal_email,
                 business_email := (emailsPersonal row p).business_email } := by
  unfold emailsPersonal
  dsimp only
  split
  · exact foldl_emailStep_shape _ p
  · rfl

theorem emailsVerified_shape (row : Row) (p : Person) :
    emailsVerified row p
      = { p with business_email := (emailsVerified row p).business_email } := by
  unfold emailsVerified
  split
  · dsimp only
    split
    · split <;> rfl
    · rfl
  · rfl

theorem updateEmails_shape (row : Row) (p : Person) :
    updateEmails row p
      = { p with personal_email := (updateEmails row p).personal_email,
                 business_email := (updateEmails row p).business_email } := by
  unfold updateEmails
  split
  · rw [emailsVerified_shape row (emailsPersonal row (emailsBusiness row p)),
      emailsPersonal_shape row (emailsBusiness row p), emailsBusiness_shape row p]
  · rfl

theorem updateDate_ok (row : Row) (p q : Person) (h : updateDate row p = .ok q) :
    q = { p with DATE := q.DATE } := by
  unfold updateDate at h
  split at h
  · dsimp only at h
    split at h
    · cases hx : extract_date_from_timestamp
          (pyOr (row.get "ACTIVITY_START_DATE") (row.get "ActivityStartDate")) with
      | ok d =>
        rw [hx] at h
        simp only [Except.ok.injEq] at h
        rw [← h]
      | error e => rw [hx] at h; exact absurd h (by simp)
    · simp only [Except.ok.injEq] at h
      rw [← h]
  · simp only [Except.ok.injEq] at h
    rw [← h]

theorem updateTimestamps_shape (row : Row) (p : Person) :
    updateTimestamps row p
      = { p with timestamps := (updateTimestamps row p).timestamps } := by
  unfold updateTimestamps
  dsimp only
  split
  · split <;> rfl
  · rfl

theorem updateLinkedin_shape (row : Row) (p : Person) :
    updateLinkedin row p
      = { p with linkedin_url := (updateLinkedin row p).linkedin_url } := by
  unfold updateLinkedin
  split
  · dsimp only
    split <;> rfl
  · rfl

theorem updateAddress_eq (row : Row) (p : Person) :
    updateAddress row p =
      { p with
        ADDRESS := if p.ADDRESS = "" then clean_value (row.get "PERSONAL_ADDRESS") else p.ADDRESS,
        CITY := if p.CITY = "" then clean_value (row.get "PERSONAL_CITY") else p.CITY,
        STATE := if p.STATE = "" then clean_value (row.get "PERSONAL_STATE") else p.STATE,
        ZIP := if p.ZIP = "" then clean_value (row.get "PERSONAL_ZIP") else p.ZIP } := by
  unfold updateAddress
  by_cases h1 : p.ADDRESS = "" <;> by_cases h2 : p.CITY = "" <;>
    by_cases h3 : p.STATE = "" <;> by_cases h4 : p.ZIP = "" <;>
    simp [h1, h2, h3, h4]

theorem updateDirectPhones_eq (row : Row) (p : Person) :
    updateDirectPhones row p =
      { p with
        direct_phones := (addDirectLoop (directDncList row) 0
          (extract_multiple (row.get "DIRECT_NUMBER"))
          (p.direct_phones, p.direct_dnc_flags)).1,
        direct_dnc_flags := (addDirectLoop (directDncList row) 0
          (extract_multiple (row.get "DIRECT_NUMBER"))
          (p.direct_phones, p.direct_dnc_flags)).2 } := by
  unfold updateDirectPhones
  dsimp only
  split
  · rfl
  · rename_i hcell
    have h : row.get "DIRECT_NUMBER" = "" := by
      by_contra hne
      exact hcell hne
    rw [h]
    rfl

theorem updateMobilePhones_eq (row : Row) (p : Person) :
    updateMobilePhones row p =
      { p with mobile_phones :=
          addPhonesLoop (extract_multiple (row.get "MOBILE_PHONE")) p.mobile_phones } := by
  unfold updateMobilePhones
  dsimp only
  split
  · rfl
  · rename_i hcell
    have h : row.get "MOBILE_PHONE" = "" := by
      by_contra hne
      exact hcell hne
    rw [h]
    rfl

theorem updatePersonalPhones_eq (row : Row) (p : Person) :
    updatePersonalPhones row p =
      { p with personal_phones :=
          addPhonesLoop (extract_multiple (row.get "PERSONAL_PHONE")) p.personal_phones } := by
  unfold updatePersonalPhones
  dsimp only
  split
  · rfl
  · rename_i hcell
    have h : row.get "PERSONAL_PHONE" = "" := by
      by_contra hne
      exact hcell hne
    rw [h]
    rfl

@[simp] theorem updateEmails_FIRST_NAME (row : Row) (p : Person) :
    (updateEmails row p).FIRST_NAME = p.FIRST_NAME := by rw [updateEmails_shape row p]

@[simp] theorem updateEmails_LAST_NAME (row : Row) (p : Person) :
    (updateEmails row p).LAST_NAME = p.LAST_NAME := by rw [updateEmails_shape row p]

@[simp] theorem updateEmails_ADDRESS (row : Row) (p : Person) :
    (updateEmails row p).ADDRESS = p.ADDRESS := by rw [updateEmails_shape row p]

@[simp] theorem updateEmails_CITY (row : Row) (p : Person) :
    (updateEmails row p).CITY = p.CITY := by rw [updateEmails_shape row p]

@[simp] theorem updateEmails_STATE (row : Row) (p : Person) :
    (updateEmails row p).STATE = p.STATE := by rw [updateEmails_shape row p]

@[simp] theorem updateEmails_ZIP (row : Row) (p : Person) :
    (updateEmails row p).ZIP = p.ZIP := by rw [updateEmails_shape row p]

@[simp] theorem updateEmails_direct_phones (row : Row) (p : Person) :
    (updateEmails row p).direct_phones = p.direct_phones := by rw [updateEmails_shape row p]

@[simp] theorem updateEmails_direct_dnc_flags (row : Row) (p : Person) :
    (updateEmails row p).direct_dnc_flags = p.direct_dnc_flags := by rw [updateEmails_shape row p]

@[simp] theorem updateEmails_mobile_phones (row : Row) (p : Person) :
    (updateEmails row p).mobile_phones = p.mobile_phones := by rw [updateEmails_shape row p]

@[simp] theorem updateEmails_personal_phones (row : Row) (p : Person) :
    (updateEmails row p).personal_phones = p.personal_phones := by rw [updateEmails_shape row p]

@[simp] theorem updateTimestamps_FIRST_NAME (row : Row) (p : Person) :
    (updateTimestamps row p).FIRST_NAME = p.FIRST_NAME := by rw [updateTimestamps_shape row p]

@[simp] theorem updateTimestamps_LAST_NAME (row : Row) (p : Person) :
    (updateTimestamps row p).LAST_NAME = p.LAST_NAME := by rw [updateTimestamps_shape row p]

@[simp] theorem updateTimestamps_ADDRESS (row : Row) (p : Person) :
    (updateTimestamps row p).ADDRESS = p.ADDRESS := by rw [updateTimestamps_shape row p]

@[simp] theorem updateTimestamps_CITY (row : Row) (p : Person) :
    (updateTimestamps row p).CITY = p.CITY := by rw [updateTimestamps_shape row p]

@[simp] theorem updateTimestamps_STATE (row : Row) (p : Person) :
    (updateTimestamps row p).STATE = p.STATE := by rw [updateTimestamps_shape row p]

@[simp] theorem updateTimestamps_ZIP (row : Row) (p : Person) :
    (updateTimestamps row p).ZIP = p.ZIP := by rw [updateTimestamps_shape row p]

@[simp] theorem updateTimestamps_direct_phones (row : Row) (p : Person) :
    (updateTimestamps row p).direct_phones = p.direct_phones := by rw [updateTimestamps_shape row p]

@[simp] theorem updateTimestamps_direct_dnc_flags (row : Row) (p : Person) :
    (updateTimestamps row p).direct_dnc_flags = p.direct_dnc_flags := by rw [updateTimestamps_shape row p]

@[simp] theorem updateTimestamps_mobile_phones (row : Row) (p : Person) :
    (updateTimestamps row p).mobile_phones = p.mobile_phones := by rw [updateTimestamps_shape row p]

@[simp] theorem updateTimestamps_personal_phones (row : Row) (p : Person) :
    (updateTimestamps row p).personal_phones = p.personal_phones := by rw [updateTimestamps_shape row p]

@[simp] theorem updateLinkedin_FIRST_NAME (row : Row) (p : Person) :
    (updateLinkedin row p).FIRST_NAME = p.FIRST_NAME := by rw [updateLinkedin_shape row p]

@[simp] theorem updateLinkedin_LAST_NAME (row : Row) (p : Person) :
    (updateLinkedin row p).LAST_NAME = p.LAST_NAME := by rw [updateLinkedin_shape row p]

@[simp] theorem updateLinkedin_ADDRESS (row : Row) (p : Person) :
    (updateLinkedin row p).ADDRESS = p.ADDRESS := by rw [updateLinkedin_shape row p]

@[simp] theorem updateLinkedin_CITY (row : Row) (p : Person) :
    (updateLinkedin row p).CITY = p.CITY := by rw [updateLinkedin_shape row p]

@[simp] theorem updateLinkedin_STATE (row : Row) (p : Person) :
    (updateLinkedin row p).STATE = p.STATE := by rw [updateLinkedin_shape row p]

@[simp] theorem updateLinkedin_ZIP (row : Row) (p : Person) :
    (updateLinkedin row p).ZIP = p.ZIP := by rw [updateLinkedin_shape row p]

@[simp] theorem updateLinkedin_direct_phones (row : Row) (p : Person) :
    (updateLinkedin row p).direct_phones = p.direct_phones := by rw [updateLinkedin_shape row p]

@[simp] theorem updateLinkedin_direct_dnc_flags (row : Row) (p : Person) :
    (updateLinkedin row p).direct_dnc_flags = p.direct_dnc_flags := by rw [updateLinkedin_shape row p]

@[simp] theorem updateLinkedin_mobile_phones (row : Row) (p : Person) :
    (updateLinkedin row p).mobile_phones = p.mobile_phones := by rw [updateLinkedin_shape row p]

@[simp] theorem updateLinkedin_personal_phones (row : Row) (p : Person) :
    (updateLinkedin row p).personal_phones = p.personal_phones := by rw [updateLinkedin_shape row p]

@[simp] theorem updateAddress_FIRST_NAME (row : Row) (p : Person) :
    (updateAddress row p).FIRST_NAME = p.FIRST_NAME := by rw [updateAddress_eq row p]

@[simp] theorem updateAddress_LAST_NAME (row : Row) (p : Person) :
    (updateAddress row p).LAST_NAME = p.LAST_NAME := by rw [updateAddress_eq row p]

@[simp] theorem updateAddress_ADDRESS (row : Row) (p : Person) :
    (updateAddress row p).ADDRESS
      = if p.ADDRESS = "" then clean_value (row.get "PERSONAL_ADDRESS") else p.ADDRESS := by
  rw [updateAddress_eq row p]

@[simp] theorem updateAddress_CITY (row : Row) (p : Person) :
    (updateAddress row p).CITY
      = if p.CITY = "" then clean_value (row.get "PERSONAL_CITY") else p.CITY := by
  rw [updateAddress_eq row p]

@[simp] theorem updateAddress_STATE (row : Row) (p : Person) :
    (updateAddress row p).STATE
      = if p.STATE = "" then clean_value (row.get "PERSONAL_STATE") else p.STATE := by
  rw [updateAddress_eq row p]

@[simp] theorem updateAddress_ZIP (row : Row) (p : Person) :
    (updateAddress row p).ZIP
      = if p.ZIP = "" then clean_value (row.get "PERSONAL_ZIP") else p.ZIP := by
  rw [updateAddress_eq row p]

@[simp] theorem updateAddress_direct_phones (row : Row) (p : Person) :
    (updateAddress row p).direct_phones = p.direct_phones := by rw [updateAddress_eq row p]

@[simp] theorem updateAddress_direct_dnc_flags (row : Row) (p : Person) :
    (updateAddress row p).direct_dnc_flags = p.direct_dnc_flags := by rw [updateAddress_eq row p]

@[simp] theorem updateAddress_mobile_phones (row : Row) (p : Person) :
    (updateAddress row p).mobile_phones = p.mobile_phones := by rw [updateAddress_eq row p]

@[simp] theorem updateAddress_personal_phones (row : Row) (p : Person) :
    (updateAddress row p).personal_phones = p.personal_phones := by rw [updateAddress_eq row p]

@[simp] theorem updateDirectPhones_FIRST_NAME (row : Row) (p : Person) :
    (updateDirectPhones row p).FIRST_NAME = p.FIRST_NAME := by rw [updateDirectPhones_eq row p]

@[simp] theorem updateDirectPhones_LAST_NAME (row : Row) (p : Person) :
    (updateDirectPhones row p).LAST_NAME = p.LAST_NAME := by rw [updateDirectPhones_eq row p]

@[simp] theorem updateDirectPhones_ADDRESS (row : Row) (p : Person) :
    (updateDirectPhones row p).ADDRESS = p.ADDRESS := by rw [updateDirectPhones_eq row p]

@[simp] theorem updateDirectPhones_CITY (row : Row) (p : Person) :
    (updateDirectPhones row p).CITY = p.CITY := by rw [updateDirectPhones_eq row p]

@[simp] theorem updateDirectPhones_STATE (row : Row) (p : Person) :
    (updateDirectPhones row p).STATE = p.STATE := by rw [updateDirectPhones_eq row p]

@[simp] theorem updateDirectPhones_ZIP (row : Row) (p : Person) :
    (updateDirectPhones row p).ZIP = p.ZIP := by rw [updateDirectPhones_eq row p]

@[simp] theorem updateDirectPhones_direct_phones (row : Row) (p : Person) :
    (updateDirectPhones row p).direct_phones
      = (addDirectLoop (directDncList row) 0 (extract_multiple (row.get "DIRECT_NUMBER"))
          (p.direct_phones, p.direct_dnc_flags)).1 := by
  rw [updateDirectPhones_eq row p]

@[simp] theorem updateDirectPhones_direct_dnc_flags (row : Row) (p : Person) :
    (updateDirectPhones row p).direct_dnc_flags
      = (addDirectLoop (directDncList row) 0 (extract_multiple (row.get "DIRECT_NUMBER"))
          (p.direct_phones, p.direct_dnc_flags)).2 := by
  rw [updateDirectPhones_eq row p]

@[simp] theorem updateDirectPhones_mobile_phones (row : Row) (p : Person) :
    (updateDirectPhones row p).mobile_phones = p.mobile_phones := by rw [updateDirectPhones_eq row p]

@[simp] theorem updateDirectPhones_personal_phones (row : Row) (p : Person) :
    (updateDirectPhones row p).personal_phones = p.personal_phones := by rw [updateDirectPhones_eq row p]

@[simp] theorem updateMobilePhones_FIRST_NAME (row : Row) (p : Person) :
    (updateMobilePhones row p).FIRST_NAME = p.FIRST_NAME := by rw [updateMobilePhones_eq row p]

@[simp] theorem updateMobilePhones_LAST_NAME (row : Row) (p : Person) :
    (updateMobilePhones row p).LAST_NAME = p.LAST_NAME := by rw [updateMobilePhones_eq row p]

@[simp] theorem updateMobilePhones_ADDRESS (row : Row) (p : Person) :
    (updateMobilePhones row p).ADDRESS = p.ADDRESS := by rw [updateMobilePhones_eq row p]

@[simp] theorem updateMobilePhones_CITY (row : Row) (p : Person) :
    (updateMobilePhones row p).CITY = p.CITY := by rw [updateMobilePhones_eq row p]

@[simp] theorem updateMobilePhones_STATE (row : Row) (p : Person) :
    (updateMobilePhones row p).STATE = p.STATE := by rw [updateMobilePhones_eq row p]

@[simp] theorem updateMobilePhones_ZIP (row : Row) (p : Person) :
    (updateMobilePhones row p).ZIP = p.ZIP := by rw [updateMobilePhones_eq row p]

@[simp] theorem updateMobilePhones_direct_phones (row : Row) (p : Person) :
    (updateMobilePhones row p).direct_phones = p.direct_phones := by rw [updateMobilePhones_eq row p]

@[simp] theorem updateMobilePhones_direct_dnc_flags (row : Row) (p : Person) :
    (updateMobilePhones row p).direct_dnc_flags = p.direct_dnc_flags := by rw [updateMobilePhones_eq row p]

@[simp] theorem updateMobilePhones_mobile_phones (row : Row) (p : Person) :
    (updateMobilePhones row p).mobile_phones
      = addPhonesLoop (extract_multiple (row.get "MOBILE_PHONE")) p.mobile_phones := by
  rw [updateMobilePhones_eq row p]

@[simp] theorem updateMobilePhones_personal_phones (row : Row) (p : Person) :
    (updateMobilePhones row p).personal_phones = p.personal_phones := by rw [updateMobilePhones_eq row p]

@[simp] theorem updatePersonalPhones_FIRST_NAME (row : Row) (p : Person) :
    (updatePersonalPhones row p).FIRST_NAME = p.FIRST_NAME := by rw [updatePersonalPhones_eq row p]

@[simp] theorem updatePersonalPhones_LAST_NAME (row : Row) (p : Person) :
    (updatePersonalPhones row p).LAST_NAME = p.LAST_NAME := by rw [updatePersonalPhones_eq row p]

@[simp] theorem updatePersonalPhones_ADDRESS (row : Row) (p : Person) :
    (updatePersonalPhones row p).ADDRESS = p.ADDRESS := by rw [updatePersonalPhones_eq row p]

@[simp] theorem updatePersonalPhones_CITY (row : Row) (p : Person) :
    (updatePersonalPhones row p).CITY = p.CITY := by rw [updatePersonalPhones_eq row p]

@[simp] theorem updatePersonalPhones_STATE (row : Row) (p : Person) :
    (updatePersonalPhones row p).STATE = p.STATE := by rw [updatePersonalPhones_eq row p]

@[simp] theorem updatePersonalPhones_ZIP (row : Row) (p : Person) :
    (updatePersonalPhones row p).ZIP = p.ZIP := by rw [updatePersonalPhones_eq row p]

@[simp] theorem updatePersonalPhones_direct_phones (row : Row) (p : Person) :
    (updatePersonalPhones row p).direct_phones = p.direct_phones := by rw [updatePersonalPhones_eq row p]

@[simp] theorem updatePersonalPhones_direct_dnc_flags (row : Row) (p : Person) :
    (updatePersonalPhones row p).direct_dnc_flags = p.direct_dnc_flags := by rw [updatePersonalPhones_eq row p]

@[simp] theorem updatePersonalPhones_mobile_phones (row : Row) (p : Person) :
    (updatePersonalPhones row p).mobile_phones = p.mobile_phones := by rw [updatePersonalPhones_eq row p]

@[simp] theorem updatePersonalPhones_personal_phones (row : Row) (p : Person) :
    (updatePersonalPhones row p).personal_phones
      = addPhonesLoop (extract_multiple (row.get "PERSONAL_PHONE")) p.personal_phones := by
  rw [updatePersonalPhones_eq row p]

@[simp] theorem updateNames_FIRST_NAME (row : Row) (p : Person) :
    (updateNames row p).FIRST_NAME
      = if p.FIRST_NAME = "" then row.get "FIRST_NAME" else p.FIRST_NAME := by
  unfold updateNames
  split <;> rfl

@[simp] theorem updateNames_LAST_NAME (row : Row) (p : Person) :
    (updateNames row p).LAST_NAME
      = if p.FIRST_NAME = "" then row.get "LAST_NAME" else p.LAST_NAME := by
  unfold updateNames
  split <;> rfl

@[simp] theorem updateNames_ADDRESS (row : Row) (p : Person) :
    (updateNames row p).ADDRESS = p.ADDRESS := by
  unfold updateNames
  split <;> rfl

@[simp] theorem updateNames_CITY (row : Row) (p : Person) :
    (updateNames row p).CITY = p.CITY := by
  unfold updateNames
  split <;> rfl

@[simp] theorem updateNames_STATE (row : Row) (p : Person) :
    (updateNames row p).STATE = p.STATE := by
  unfold updateNames
  split <;> rfl

@[simp] theorem updateNames_ZIP (row : Row) (p : Person) :
    (updateNames row p).ZIP = p.ZIP := by
  unfold updateNames
  split <;> rfl

@[simp] theorem updateNames_direct_phones (row : Row) (p : Person) :
    (updateNames row p).direct_phones = p.direct_phones := by
  unfold updateNames
  split <;> rfl

@[simp] theorem updateNames_direct_dnc_flags (row : Row) (p : Person) :
    (updateNames row p).direct_dnc_flags = p.direct_dnc_flags := by
  unfold updateNames
  split <;> rfl

@[simp] theorem updateNames_mobile_phones (row : Row) (p : Person) :
    (updateNames row p).mobile_phones = p.mobile_phones := by
  unfold updateNames
  split <;> rfl

@[simp] theorem updateNames_personal_phones (row : Row) (p : Person) :
    (updateNames row p).personal_phones = p.personal_phones := by
  unfold updateNames
  split <;> rfl

@[simp] theorem updateOccurrence_FIRST_NAME (p : Person) :
    (updateOccurrence p).FIRST_NAME = p.FIRST_NAME := rfl

@[simp] theorem updateOccurrence_LAST_NAME (p : Person) :
    (updateOccurrence p).LAST_NAME = p.LAST_NAME := rfl

@[simp] theorem updateOccurrence_ADDRESS (p : Person) :
    (updateOccurrence p).ADDRESS = p.ADDRESS := rfl

@[simp] theorem updateOccurrence_CITY (p : Person) :
    (updateOccurrence p).CITY = p.CITY := rfl

@[simp] theorem updateOccurrence_STATE (p : Person) :
    (updateOccurrence p).STATE = p.STATE := rfl

@[simp] theorem updateOccurrence_ZIP (p : Person) :
    (updateOccurrence p).ZIP = p.ZIP := rfl

@[simp] theorem updateOccurrence_direct_phones (p : Person) :
    (updateOccurrence p).direct_phones = p.direct_phones := rfl

@[simp] theorem updateOccurrence_direct_dnc_flags (p : Person) :
    (updateOccurrence p).direct_dnc_flags = p.direct_dnc_flags := rfl

@[simp] theorem updateOccurrence_mobile_phones (p : Person) :
    (updateOccurrence p).mobile_phones = p.mobile_phones := rfl

@[simp] theorem updateOccurrence_personal_phones (p : Person) :
    (updateOccurrence p).personal_phones = p.personal_phones := rfl


theorem updateDate_frame (row : Row) (p q : Person) (h : updateDate row p = .ok q) :
    q.FIRST_NAME = p.FIRST_NAME ∧ q.LAST_NAME = p.LAST_NAME
    ∧ q.ADDRESS = p.ADDRESS ∧ q.CITY = p.CITY ∧ q.STATE = p.STATE ∧ q.ZIP = p.ZIP
    ∧ q.direct_phones = p.direct_phones ∧ q.direct_dnc_flags = p.direct_dnc_flags
    ∧ q.mobile_phones = p.mobile_phones ∧ q.personal_phones = p.personal_phones := by
  have hq := updateDate_ok row p q h
  rw [hq]
  exact ⟨rfl, rfl, rfl, rfl, rfl, rfl, rfl, rfl, rfl, rfl⟩

theorem stepPerson_ok_fields (row : Row) (p q : Person) (h : stepPerson row p = .ok q) :
    q.FIRST_NAME = (if p.FIRST_NAME = "" then row.get "FIRST_NAME" else p.FIRST_NAME)
    ∧ q.LAST_NAME = (if p.FIRST_NAME = "" then row.get "LAST_NAME" else p.LAST_NAME)
    ∧ q.ADDRESS = (if p.ADDRESS = "" then clean_value (row.get "PERSONAL_ADDRESS") else p.ADDRESS)
    ∧ q.CITY = (if p.CITY = "" then clean_value (row.get "PERSONAL_CITY") else p.CITY)
    ∧ q.STATE = (if p.STATE = "" then clean_value (row.get "PERSONAL_STATE") else p.STATE)
    ∧ q.ZIP = (if p.ZIP = "" then clean_value (row.get "PERSONAL_ZIP") else p.ZIP)
    ∧ q.direct_phones = (addDirectLoop (directDncList row) 0
        (extract_multiple (row.get "DIRECT_NUMBER"))
        (p.direct_phones, p.direct_dnc_flags)).1
    ∧ q.direct_dnc_flags = (addDirectLoop (directDncList row) 0
        (extract_multiple (row.get "DIRECT_NUMBER"))
        (p.direct_phones, p.direct_dnc_flags)).2
    ∧ q.mobile_phones = addPhonesLoop (extract_multiple (row.get "MOBILE_PHONE")) p.mobile_phones
    ∧ q.personal_phones
        = addPhonesLoop (extract_multiple (row.get "PERSONAL_PHONE")) p.personal_phones := by
  unfold stepPerson at h
  cases hd : updateDate row (updateNames row (updateOccurrence p)) with
  | error e => rw [hd] at h; exact absurd h (by simp)
  | ok x =>
    rw [hd] at h
    simp only [Except.ok.injEq] at h
    obtain ⟨n1, n2, n3, n4, n5, n6, n7, n8, n9, n10⟩ := updateDate_frame row _ x hd
    subst h
    simp [n1, n2, n3, n4, n5, n6, n7, n8, n9, n10]

theorem lookup_mem (m : List (String × Person)) (k : String) (p : Person)
    (h : m.lookup k = some p) : (k, p) ∈ m := by
  induction m with
  | nil => simp [List.lookup] at h
  | cons kp rest ih =>
    obtain ⟨k0, p0⟩ := kp
    rw [List.lookup] at h
    by_cases h0 : k = k0
    · have : (k == k0) = true := by simp [beq_iff_eq, h0]
      rw [this] at h
      simp only [Option.some.injEq] at h
      simp [h0, h]
    · have : (k == k0) = false := by simp [beq_iff_eq, h0]
      rw [this] at h
      exact List.mem_cons_of_mem _ (ih h)

theorem stepState_ok_key (st : RunState) (row : Row) (st' : RunState) (k : String)
    (hk : rowKey row = some k) (h : stepState st row = .ok st') :
    ∃ q, stepPerson row ((st.people.lookup k).getD emptyPerson) = .ok q
      ∧ st'.people = mapSet st.people k q := by
  unfold stepState at h
  rw [hk] at h
  dsimp only at h
  cases hq : stepPerson row ((st.people.lookup k).getD emptyPerson) with
  | error e => rw [hq] at h; exact absurd h (by simp)
  | ok q =>
    rw [hq] at h
    simp only [Except.ok.injEq] at h
    exact ⟨q, rfl, by rw [← h]⟩

theorem stepState_ok_people (st : RunState) (row : Row) (st' : RunState)
    (h : stepState st row = .ok st') :
    st'.people = st.people ∨
    ∃ k q, rowKey row = some k
      ∧ stepPerson row ((st.people.lookup k).getD emptyPerson) = .ok q
      ∧ st'.people = mapSet st.people k q := by
  cases hk : rowKey row with
  | none =>
    left
    unfold stepState at h
    rw [hk] at h
    simp only [Except.ok.injEq] at h
    rw [← h]
  | some k =>
    right
    obtain ⟨q, hq, hp⟩ := stepState_ok_key st row st' k hk h
    exact ⟨k, q, rfl, hq, hp⟩

theorem processRows_inv (P : List (String × Person) → Prop)
    (hstep : ∀ people row k q, rowKey row = some k →
        stepPerson row ((people.lookup k).getD emptyPerson) = .ok q →
        P people → P (mapSet people k q))
    (rows : List Row) :
    ∀ st st', processRows st rows = .ok st' → P st.people → P st'.people := by
  induction rows with
  | nil =>
    intro st st' h h0
    unfold processRows at h
    rw [List.foldlM_nil] at h
    have : st = st' := by simpa [pure, Except.pure] using h
    rw [← this]
    exact h0
  | cons r rs ih =>
    intro st st' h h0
    unfold processRows at h
    rw [List.foldlM_cons] at h
    obtain ⟨st1, hs1, h2⟩ := exceptBindOk h
    rcases stepState_ok_people st r st1 hs1 with hsame | ⟨k, q, hk, hq, hp⟩
    · exact ih st1 st' h2 (by rw [hsame]; exact h0)
    · exact ih st1 st' h2 (by rw [hp]; exact hstep st.people r k q hk hq h0)

theorem stepPerson_flags_append (row : Row) (p q : Person) (h : stepPerson row p = .ok q) :
    ∃ t, q.direct_dnc_flags = p.direct_dnc_flags ++ t := by
  obtain ⟨-, -, -, -, -, -, -, h8, -, -⟩ := stepPerson_ok_fields row p q h
  rw [h8, addDirectLoop_append]
  exact ⟨_, rfl⟩

theorem stepState_flags_mono (st : RunState) (row : Row) (st' : RunState)
    (h : stepState st row = .ok st') (k : String) :
    ∃ t, flagsAt st'.people k = flagsAt st.people k ++ t := by
  rcases stepState_ok_people st row st' h with hsame | ⟨k', q, hk, hq, hp⟩
  · exact ⟨[], by rw [hsame, List.append_nil]⟩
  · by_cases hkk : k = k'
    · subst hkk
      obtain ⟨t, ht⟩ := stepPerson_flags_append row _ q hq
      refine ⟨t, ?_⟩
      unfold flagsAt
      rw [hp, mapSet_lookup_self]
      simpa using ht
    · refine ⟨[], ?_⟩
      unfold flagsAt
      rw [hp, mapSet_lookup_ne _ _ _ _ hkk, List.append_nil]

theorem processRows_flags_mono (rows : List Row) :
    ∀ st st', processRows st rows = .ok st' → ∀ k,
      ∃ t, flagsAt st'.people k = flagsAt st.people k ++ t := by
  induction rows with
  | nil =>
    intro st st' h k
    unfold processRows at h
    rw [List.foldlM_nil] at h
    have : st = st' := by simpa [pure, Except.pure] using h
    exact ⟨[], by rw [← this, List.append_nil]⟩
  | cons r rs ih =>
    intro st st' h k
    unfold processRows at h
    rw [List.foldlM_cons] at h
    obtain ⟨st1, hs1, h2⟩ := exceptBindOk h
    obtain ⟨t1, ht1⟩ := stepState_flags_mono st r st1 hs1 k
    obtain ⟨t2, ht2⟩ := ih st1 st' h2 k
    exact ⟨t1 ++ t2, by rw [ht2, ht1, List.append_assoc]⟩

theorem processRows_append (st : RunState) (a b : List Row) :
    processRows st (a ++ b)
      = processRows st a >>= fun st1 => processRows st1 b := by
  unfold processRows
  rw [List.foldlM_append]

theorem stepPerson_nodup (row : Row) (p q : Person) (h : stepPerson row p = .ok q)
    (hd : p.direct_phones.Nodup) (hm : p.mobile_phones.Nodup)
    (hp : p.personal_phones.Nodup) :
    q.direct_phones.Nodup ∧ q.mobile_phones.Nodup ∧ q.personal_phones.Nodup := by
  obtain ⟨-, -, -, -, -, -, h7, -, h9, h10⟩ := stepPerson_ok_fields row p q h
  refine ⟨?_, ?_, ?_⟩
  · rw [h7, addDirectLoop_fst, addPhonesLoop_eq_dedupAux]
    exact dedupFirstAux_nodup _ _ hd
  · rw [h9, addPhonesLoop_eq_dedupAux]
    exact dedupFirstAux_nodup _ _ hm
  · rw [h10, addPhonesLoop_eq_dedupAux]
    exact dedupFirstAux_nodup _ _ hp

theorem lookup_getD_cases (people : List (String × Person)) (k : String)
    (P : Person → Prop)
    (hempty : P emptyPerson)
    (hmem : ∀ p0, (k, p0) ∈ people → P p0) :
    P ((people.lookup k).getD emptyPerson) := by
  cases hl : people.lookup k with
  | none => exact hempty
  | some p0 => exact hmem p0 (lookup_mem people k p0 hl)

/-- C8: at every point during processing, every accumulator's three
phone-category sequences contain no repeated value, and the recorded
direct-DNC flags are never overwritten: the flag list of any earlier
point in the run is a prefix of the later one. -/
theorem C8_phone_invariants :
    (∀ fieldnames rows kp, kp ∈ peopleAfter fieldnames rows →
        kp.2.direct_phones.Nodup ∧ kp.2.mobile_phones.Nodup
          ∧ kp.2.personal_phones.Nodup)
    ∧ (∀ fieldnames rows rows' k,
        (processRows (initState fieldnames) (rows ++ rows')).isOk = true →
        flagsAt (peopleAfter fieldnames rows) k
          <+: flagsAt (peopleAfter fieldnames (rows ++ rows')) k) := by
  constructor
  · intro fieldnames rows kp hkp
    unfold peopleAfter at hkp
    cases hrun : processRows (initState fieldnames) rows with
    | error e => rw [hrun] at hkp; simp at hkp
    | ok st =>
      rw [hrun] at hkp
      refine processRows_inv
        (fun m => ∀ kp ∈ m, kp.2.direct_phones.Nodup ∧ kp.2.mobile_phones.Nodup
          ∧ kp.2.personal_phones.Nodup) ?_ rows (initState fieldnames) st hrun ?_ kp hkp
      · intro people row k q hk hq hP kp' hkp'
        rcases mem_mapSet people k q kp' hkp' with heq | hmem
        · rw [heq]
          have hper : ((people.lookup k).getD emptyPerson).direct_phones.Nodup
              ∧ ((people.lookup k).getD emptyPerson).mobile_phones.Nodup
              ∧ ((people.lookup k).getD emptyPerson).personal_phones.Nodup := by
            refine lookup_getD_cases people k
              (fun p => p.direct_phones.Nodup ∧ p.mobile_phones.Nodup
                ∧ p.personal_phones.Nodup) ?_ ?_
            · simp [emptyPerson]
            · intro p0 hp0
              exact hP (k, p0) hp0
          exact stepPerson_nodup row _ q hq hper.1 hper.2.1 hper.2.2
        · exact hP kp' hmem
      · intro kp' hkp'
        simp [initState] at hkp'
  · intro fieldnames rows rows' k hok
    cases hall : processRows (initState fieldnames) (rows ++ rows') with
    | error e => rw [hall] at hok; simp [Except.isOk, Except.toBool] at hok
    | ok st2 =>
      have h' := hall
      rw [processRows_append] at h'
      obtain ⟨st1, hA, hB⟩ := exceptBindOk h'
      obtain ⟨t, ht⟩ := processRows_flags_mono rows' st1 st2 hB k
      unfold peopleAfter
      rw [hall, hA]
      exact ⟨t, ht.symm⟩

/-- C8 witness: a concrete two-row run in which the flag list of the
one-row point is a prefix of the final one and all phone lists are
duplicate-free. -/
theorem C8_phone_invariants_witness :
    (((peopleAfter ["FIRST_NAME"] [rowW1, rowW2]).headD ("", emptyPerson)).2.direct_phones.Nodup
      ∧ ((peopleAfter ["FIRST_NAME"] [rowW1, rowW2]).headD ("", emptyPerson)).2.mobile_phones.Nodup
      ∧ ((peopleAfter ["FIRST_NAME"] [rowW1, rowW2]).headD ("", emptyPerson)).2.personal_phones.Nodup)
    ∧ flagsAt (peopleAfter ["FIRST_NAME"] [rowW1]) "JOHN|DOE"
        <+: flagsAt (peopleAfter ["FIRST_NAME"] [rowW1, rowW2]) "JOHN|DOE" :=
  ⟨C8_phone_invariants.1 ["FIRST_NAME"] [rowW1, rowW2] _ (by decide),
   C8_phone_invariants.2 ["FIRST_NAME"] [rowW1] [rowW2] "JOHN|DOE" (by decide)⟩

theorem zipMapPair {α β : Type} (l : List (α × β)) :
    (l.map Prod.fst).zip (l.map Prod.snd) = l := by
  induction l with
  | nil => rfl
  | cons x xs ih => simp [ih]

/-- C10 (counterexample): the emitted output carries no DNC column at
all: two one-row inputs that differ only in `DIRECT_NUMBER_DNC` store
different flags in the accumulator yet produce identical output rows,
so the output does not pair the first direct phone with its
first-sighting flag. -/
theorem C10_counterexample :
    outputRowsOf ["FIRST_NAME"] [rowDncY] = outputRowsOf ["FIRST_NAME"] [rowDncN]
    ∧ flagsAt (peopleAfter ["FIRST_NAME"] [rowDncY]) "A|B" = ["Y"]
    ∧ flagsAt (peopleAfter ["FIRST_NAME"] [rowDncN]) "A|B" = ["N"]
    ∧ (outputRowsOf ["FIRST_NAME"] [rowDncY]).map (fun o => o.directPhone)
        = ["5551234567"] := by
  decide

/-- C10 (amended): every reachable accumulator keeps its direct-phone
and direct-DNC-flag lists at equal length; one row's update appends the
two lists in lockstep, pairing each newly first-seen phone with the DNC
flag at the same candidate index (empty when the DNC list is shorter);
but the projection to an output row ignores the flag list entirely (the
fixed output schema has no DNC column), so the pairing never reaches
the output. -/
theorem C10_flags_lockstep :
    (∀ fieldnames rows kp, kp ∈ peopleAfter fieldnames rows →
        kp.2.direct_phones.length = kp.2.direct_dnc_flags.length)
    ∧ (∀ row p, p.direct_phones.length = p.direct_dnc_flags.length →
        (updateDirectPhones row p).direct_phones.zip
            (updateDirectPhones row p).direct_dnc_flags
          = p.direct_phones.zip p.direct_dnc_flags
            ++ newDirectPairs (directDncList row) 0
                (extract_multiple (row.get "DIRECT_NUMBER")) p.direct_phones)
    ∧ (∀ p flags, projectPerson { p with direct_dnc_flags := flags } = projectPerson p) := by
  refine ⟨?_, ?_, ?_⟩
  · intro fieldnames rows kp hkp
    unfold peopleAfter at hkp
    cases hrun : processRows (initState fieldnames) rows with
    | error e => rw [hrun] at hkp; simp at hkp
    | ok st =>
      rw [hrun] at hkp
      refine processRows_inv
        (fun m => ∀ kp ∈ m, kp.2.direct_phones.length = kp.2.direct_dnc_flags.length)
        ?_ rows (initState fieldnames) st hrun ?_ kp hkp
      · intro people row k q hk hq hP kp' hkp'
        rcases mem_mapSet people k q kp' hkp' with heq | hmem
        · rw [heq]
          obtain ⟨-, -, -, -, -, -, h7, h8, -, -⟩ := stepPerson_ok_fields row _ q hq
          have hper : ((people.lookup k).getD emptyPerson).direct_phones.length
              = ((people.lookup k).getD emptyPerson).direct_dnc_flags.length := by
            refine lookup_getD_cases people k
              (fun p => p.direct_phones.length = p.direct_dnc_flags.length) ?_ ?_
            · rfl
            · intro p0 hp0
              exact hP (k, p0) hp0
          rw [h7, h8, addDirectLoop_append]
          simp [hper]
        · exact hP kp' hmem
      · intro kp' hkp'
        simp [initState] at hkp'
  · intro row p hlen
    rw [updateDirectPhones_direct_phones, updateDirectPhones_direct_dnc_flags,
      addDirectLoop_append, List.zip_append hlen, zipMapPair]
  · intro p flags
    rfl

/-- C10 witness: the lockstep facts at a concrete run and a concrete
single-row update. -/
theorem C10_flags_lockstep_witness :
    ((peopleAfter ["FIRST_NAME"] [rowW1, rowW2]).headD ("", emptyPerson)).2.direct_phones.length
      = ((peopleAfter ["FIRST_NAME"] [rowW1, rowW2]).headD ("", emptyPerson)).2.direct_dnc_flags.length
    ∧ (updateDirectPhones rowDncY emptyPerson).direct_phones.zip
        (updateDirectPhones rowDncY emptyPerson).direct_dnc_flags
      = emptyPerson.direct_phones.zip emptyPerson.direct_dnc_flags
        ++ newDirectPairs (directDncList rowDncY) 0
            (extract_multiple (rowDncY.get "DIRECT_NUMBER")) emptyPerson.direct_phones :=
  ⟨C10_flags_lockstep.1 ["FIRST_NAME"] [rowW1, rowW2] _ (by decide),
   C10_flags_lockstep.2.1 rowDncY emptyPerson (by decide)⟩

theorem rowKey_some (row : Row) (k : String) (h : rowKey row = some k) :
    pyUpper (clean_value (row.get "FIRST_NAME")) ≠ ""
    ∧ k = pyUpper (clean_value (row.get "FIRST_NAME")) ++ "|"
        ++ pyUpper (clean_value (row.get "LAST_NAME")) := by
  unfold rowKey at h
  dsimp only at h
  split at h
  · exact absurd h (by simp)
  · rename_i hcond
    push_neg at hcond
    simp only [Option.some.injEq] at h
    exact ⟨hcond.1, h.symm⟩

theorem stepPerson_key_consistent (people : List (String × Person)) (row : Row)
    (k : String) (q : Person)
    (hk : rowKey row = some k)
    (hq : stepPerson row ((people.lookup k).getD emptyPerson) = .ok q)
    (hinv : ∀ kp ∈ people, personKey kp.2 = kp.1) :
    personKey q = k := by
  obtain ⟨hne, hkeq⟩ := rowKey_some row k hk
  obtain ⟨f1, f2, -, -, -, -, -, -, -, -⟩ := stepPerson_ok_fields row _ q hq
  unfold personKey
  by_cases hfe : ((people.lookup k).getD emptyPerson).FIRST_NAME = ""
  · rw [f1, f2, if_pos hfe, if_pos hfe]
    exact hkeq.symm
  · cases hl : people.lookup k with
    | none =>
      rw [hl] at hfe
      simp [emptyPerson] at hfe
    | some p0 =>
      have hp0 : personKey p0 = k := hinv (k, p0) (lookup_mem people k p0 hl)
      rw [hl] at f1 f2 hfe
      simp only [Option.getD_some] at f1 f2 hfe
      rw [f1, f2, if_neg hfe, if_neg hfe]
      exact hp0

theorem map_personKey_eq_fst (m : List (String × Person))
    (h : ∀ kp ∈ m, personKey kp.2 = kp.1) :
    m.map (fun kp => personKey kp.2) = m.map Prod.fst := by
  induction m with
  | nil => rfl
  | cons kp rest ih =>
    simp only [List.map_cons]
    rw [h kp (by simp), ih (fun x hx => h x (by simp [hx]))]

theorem outputRowsOf_shape (fieldnames : List String) (rows : List Row) :
    outputRowsOf fieldnames rows = [] ∨
    ∃ st, processRows (initState fieldnames) rows = .ok st
      ∧ outputRowsOf fieldnames rows = st.people.map (fun kp => projectPerson kp.2) := by
  unfold outputRowsOf processCsv
  by_cases hfn : fieldnames = []
  · rw [if_pos hfn]
    left
    rfl
  · rw [if_neg hfn]
    cases hrun : processRows (initState fieldnames) rows with
    | error e => left; rfl
    | ok st =>
      dsimp only
      by_cases hout : st.people.map (fun kp => projectPerson kp.2) = []
      · rw [if_pos hout]
        left
        rfl
      · rw [if_neg hout]
        right
        exact ⟨st, rfl, rfl⟩

/-- C6: for every input, no two emitted output rows share the same
normalized (cleaned, uppercased) first+last identity key. -/
theorem C6_output_keys_unique (fieldnames : List String) (rows : List Row) :
    ((outputRowsOf fieldnames rows).map outRowKey).Nodup := by
  rcases outputRowsOf_shape fieldnames rows with hnil | ⟨st, hrun, hout⟩
  · rw [hnil]
    exact List.nodup_nil
  · have hinv : (st.people.map Prod.fst).Nodup
        ∧ ∀ kp ∈ st.people, personKey kp.2 = kp.1 := by
      refine processRows_inv
        (fun m => (m.map Prod.fst).Nodup ∧ ∀ kp ∈ m, personKey kp.2 = kp.1)
        ?_ rows (initState fieldnames) st hrun ?_
      · intro people row k q hk hq hP
        refine ⟨mapSet_map_fst_nodup people k q hP.1, ?_⟩
        intro kp' hkp'
        rcases mem_mapSet people k q kp' hkp' with heq | hmem
        · rw [heq]
          exact stepPerson_key_consistent people row k q hk hq hP.2
        · exact hP.2 kp' hmem
      · exact ⟨List.nodup_nil, by simp [initState]⟩
    rw [hout, List.map_map]
    have : (outRowKey ∘ fun kp => projectPerson kp.2) = fun kp : String × Person => personKey kp.2 := rfl
    rw [this, map_personKey_eq_fst st.people hinv.2]
    exact hinv.1

/-- C1: when two rows share one normalized first+last identity key, the
finalized accumulator keeps the first row's cleaned address components
wherever the first row supplies them (first-wins, never overwritten by
the later row), and each phone category retains exactly the distinct
valid phones of both rows, in original input order. -/
theorem C1_first_wins_collect_all (fieldnames : List String) (r1 r2 : Row) (k : String)
    (h1 : rowKey r1 = some k) (h2 : rowKey r2 = some k)
    (hok : (processRows (initState fieldnames) [r1, r2]).isOk = true) :
    (clean_value (r1.get "PERSONAL_ADDRESS") ≠ "" →
      (personAfter fieldnames [r1, r2] k).ADDRESS = clean_value (r1.get "PERSONAL_ADDRESS"))
    ∧ (clean_value (r1.get "PERSONAL_CITY") ≠ "" →
      (personAfter fieldnames [r1, r2] k).CITY = clean_value (r1.get "PERSONAL_CITY"))
    ∧ (clean_value (r1.get "PERSONAL_STATE") ≠ "" →
      (personAfter fieldnames [r1, r2] k).STATE = clean_value (r1.get "PERSONAL_STATE"))
    ∧ (clean_value (r1.get "PERSONAL_ZIP") ≠ "" →
      (personAfter fieldnames [r1, r2] k).ZIP = clean_value (r1.get "PERSONAL_ZIP"))
    ∧ (personAfter fieldnames [r1, r2] k).direct_phones
        = dedupFirst ((extract_multiple (r1.get "DIRECT_NUMBER")
            ++ extract_multiple (r2.get "DIRECT_NUMBER")).filterMap clean_phone)
    ∧ (personAfter fieldnames [r1, r2] k).mobile_phones
        = dedupFirst ((extract_multiple (r1.get "MOBILE_PHONE")
            ++ extract_multiple (r2.get "MOBILE_PHONE")).filterMap clean_phone)
    ∧ (personAfter fieldnames [r1, r2] k).personal_phones
        = dedupFirst ((extract_multiple (r1.get "PERSONAL_PHONE")
            ++ extract_multiple (r2.get "PERSONAL_PHONE")).filterMap clean_phone) := by
  cases hrun : processRows (initState fieldnames) [r1, r2] with
  | error e => rw [hrun] at hok; simp [Except.isOk, Except.toBool] at hok
  | ok st' =>
    have h' := hrun
    unfold processRows at h'
    rw [List.foldlM_cons] at h'
    obtain ⟨st1, hs1, hrest⟩ := exceptBindOk h'
    rw [List.foldlM_cons] at hrest
    obtain ⟨st2, hs2, hrest2⟩ := exceptBindOk hrest
    rw [List.foldlM_nil] at hrest2
    have hst2 : st2 = st' := by simpa [pure, Except.pure] using hrest2
    obtain ⟨q1, hq1, hp1⟩ := stepState_ok_key _ r1 st1 k h1 hs1
    obtain ⟨q2, hq2, hp2⟩ := stepState_ok_key st1 r2 st2 k h2 hs2
    have hInit : (((initState fieldnames).people.lookup k).getD emptyPerson) = emptyPerson := rfl
    rw [hInit] at hq1
    have hlook1 : ((st1.people.lookup k).getD emptyPerson) = q1 := by
      rw [hp1, mapSet_lookup_self]
      rfl
    rw [hlook1] at hq2
    have hfinal : personAfter fieldnames [r1, r2] k = q2 := by
      unfold personAfter peopleAfter
      rw [hrun, ← hst2]
      dsimp only
      rw [hp2, mapSet_lookup_self]
      rfl
    rw [hfinal]
    obtain ⟨a1, a2, a3, a4, a5, a6, a7, a8, a9, a10⟩ := stepPerson_ok_fields r1 emptyPerson q1 hq1
    obtain ⟨b1, b2, b3, b4, b5, b6, b7, b8, b9, b10⟩ := stepPerson_ok_fields r2 q1 q2 hq2
    have ha3 : q1.ADDRESS = clean_value (r1.get "PERSONAL_ADDRESS") := by
      rw [a3]
      rfl
    have ha4 : q1.CITY = clean_value (r1.get "PERSONAL_CITY") := by
      rw [a4]
      rfl
    have ha5 : q1.STATE = clean_value (r1.get "PERSONAL_STATE") := by
      rw [a5]
      rfl
    have ha6 : q1.ZIP = clean_value (r1.get "PERSONAL_ZIP") := by
      rw [a6]
      rfl
    refine ⟨?_, ?_, ?_, ?_, ?_, ?_, ?_⟩
    · intro hne
      rw [b3, ha3, if_neg hne]
    · intro hne
      rw [b4, ha4, if_neg hne]
    · intro hne
      rw [b5, ha5, if_neg hne]
    · intro hne
      rw [b6, ha6, if_neg hne]
    · rw [b7, addDirectLoop_fst, a7, addDirectLoop_fst,
        addPhonesLoop_eq_dedupAux, addPhonesLoop_eq_dedupAux]
      simp [dedupFirst, List.filterMap_append, dedupFirstAux_append, emptyPerson]
    · rw [b9, a9, addPhonesLoop_eq_dedupAux, addPhonesLoop_eq_dedupAux]
      simp [dedupFirst, List.filterMap_append, dedupFirstAux_append, emptyPerson]
    · rw [b10, a10, addPhonesLoop_eq_dedupAux, addPhonesLoop_eq_dedupAux]
      simp [dedupFirst, List.filterMap_append, dedupFirstAux_append, emptyPerson]

/-- C1 witness: the first-wins and collect-all facts at a concrete pair
of rows sharing the JOHN|DOE key. -/
theorem C1_first_wins_collect_all_witness :
    ((personAfter ["FIRST_NAME"] [rowW1, rowW2] "JOHN|DOE").ADDRESS = "1 Main St")
    ∧ ((personAfter ["FIRST_NAME"] [rowW1, rowW2] "JOHN|DOE").direct_phones
        = ["5551234567", "5559876543"]) := by
  have h := C1_first_wins_collect_all ["FIRST_NAME"] rowW1 rowW2 "JOHN|DOE"
    (by decide) (by decide) (by decide)
  refine ⟨?_, ?_⟩
  · have := h.1 (by decide)
    rw [this]
    decide
  · have := h.2.2.2.2.1
    rw [this]
    decide

theorem digit_toLower (c : Char) (h : Char.isDigit c = true) : c.toLower = c := by
  unfold Char.isDigit at h
  rw [Bool.and_eq_true, decide_eq_true_eq, decide_eq_true_eq] at h
  have h2 : c.val.toNat ≤ 57 := UInt32.toNat_le_of_le (by decide) h.2
  unfold Char.toLower
  have hno : ¬ (Char.toNat c ≥ 65 ∧ Char.toNat c ≤ 90) := by
    unfold Char.toNat
    omega
  rw [if_neg hno]

theorem specDropTrunk_subset (l : List Char) : specDropTrunk l ⊆ l := by
  unfold specDropTrunk
  split
  · exact List.drop_subset _ _
  · exact fun x hx => hx

theorem specDropCountry_subset (l : List Char) : specDropCountry l ⊆ l := by
  unfold specDropCountry
  split
  · exact List.drop_subset _ _
  · exact fun x hx => hx

theorem clean_phone_some_props (s v : String) (h : clean_phone s = some v) :
    (∀ c ∈ v.data, Char.isDigit c = true) ∧ 7 ≤ v.data.length ∧ v.data.length ≤ 15 := by
  rw [clean_phone_eq_spec] at h
  unfold normalizePhone_spec at h
  split at h
  · exact absurd h (by simp)
  · dsimp only at h
    split at h
    · rename_i hacc
      simp only [Option.some.injEq] at h
      rw [← h]
      refine ⟨?_, hacc.1, hacc.2⟩
      intro c hc
      have hc2 : c ∈ specStripZeros (specDigits s) :=
        specDropTrunk_subset _ (specDropCountry_subset _ hc)
      have hc3 : c ∈ specDigits s := (List.dropWhile_sublist _).subset hc2
      exact (List.mem_filter.mp hc3).2
    · exact absurd h (by simp)

/-- C3 (counterexample): phone normalization is not idempotent: an
accepted value can itself still carry a droppable `91`/`1` lead-in or a
leading zero, so re-cleaning changes it. -/
theorem C3_counterexample :
    clean_phone "9113333333333" = some "13333333333"
    ∧ clean_phone "13333333333" = some "3333333333"
    ∧ clean_phone "10123456789" = some "0123456789"
    ∧ clean_phone "0123456789" = some "123456789"
    ∧ ("13333333333" : String) ≠ "3333333333"
    ∧ ("0123456789" : String) ≠ "123456789" := by
  decide

/-- C3 (amended): `clean_phone` is idempotent on every accepted value
except those that still begin with a dropped prefix: if the accepted
value does not start with `0` and is not an over-10-digit value
starting with `1`, `91` or `92`, re-cleaning returns it unchanged. -/
theorem C3_idempotent_amended (s v : String) (h : clean_phone s = some v)
    (h0 : v.data.take 1 ≠ ['0'])
    (hd : ¬ (10 < v.data.length ∧ (v.data.take 1 = ['1']
        ∨ v.data.take 2 = ['9', '1'] ∨ v.data.take 2 = ['9', '2']))) :
    clean_phone v = some v := by
  obtain ⟨hdig, hlen1, hlen2⟩ := clean_phone_some_props s v h
  unfold clean_phone
  have hvne : ¬ (v = "" ∨ pyLower v ∈ ["null", "undefined", "nan", ""]) := by
    rintro (hv | hv)
    · rw [hv] at hlen1
      simp at hlen1
    · have hlenp : (pyLower v).data.length = v.data.length := by
        unfold pyLower
        simp
      simp only [List.mem_cons, List.not_mem_nil, or_false] at hv
      rcases hv with hv | hv | hv | hv
      · rw [hv] at hlenp
        have h4 : ("null" : String).data.length = 4 := rfl
        omega
      · cases hvd : v.data with
        | nil => rw [hvd] at hlen1; simp at hlen1
        | cons c rest =>
          have hc : Char.isDigit c = true := hdig c (by rw [hvd]; exact List.mem_cons_self _ _)
          have hdata := congrArg String.data hv
          unfold pyLower at hdata
          rw [hvd] at hdata
          have hud : ("undefined" : String).data = 'u' :: ("ndefined" : String).data := rfl
          rw [hud] at hdata
          simp only [List.map_cons, List.cons.injEq] at hdata
          have hcl : c.toLower = 'u' := hdata.1
          rw [digit_toLower c hc] at hcl
          rw [hcl] at hc
          simp at hc
      · rw [hv] at hlenp
        have h3 : ("nan" : String).data.length = 3 := rfl
        omega
      · rw [hv] at hlenp
        have hz : ("" : String).data.length = 0 := rfl
        omega
  rw [if_neg hvne]
  dsimp only
  have hfilter : v.data.filter Char.isDigit = v.data := List.filter_eq_self.mpr hdig
  rw [hfilter]
  have hdropw : v.data.dropWhile (fun c => c = '0') = v.data := by
    cases hvd : v.data with
    | nil => rfl
    | cons c rest =>
      have hcne : ¬ (c = '0') := by
        intro hc
        apply h0
        rw [hvd, hc]
        rfl
      simp [List.dropWhile_cons, hcne]
  rw [hdropw]
  have hc1 : ¬ (10 < (String.mk v.data).length
      ∧ pyStartsWith "1" (String.mk v.data) = true) := by
    rintro ⟨hgt, hsw⟩
    exact hd ⟨hgt, Or.inl ((listLeads_iff_take "1".data v.data).mp hsw)⟩
  rw [if_neg hc1]
  have hc2 : ¬ (10 < (String.mk v.data).length
      ∧ (pyStartsWith "91" (String.mk v.data) = true
        ∨ pyStartsWith "92" (String.mk v.data) = true)) := by
    rintro ⟨hgt, hsw | hsw⟩
    · exact hd ⟨hgt, Or.inr (Or.inl ((listLeads_iff_take "91".data v.data).mp hsw))⟩
    · exact hd ⟨hgt, Or.inr (Or.inr ((listLeads_iff_take "92".data v.data).mp hsw))⟩
  rw [if_neg hc2]
  rw [if_pos ⟨hlen1, hlen2⟩]

/-- C3 witness: re-cleaning the accepted value of the spec's worked
example returns it unchanged. -/
theorem C3_idempotent_amended_witness :
    clean_phone "5551234567" = some "5551234567" :=
  C3_idempotent_amended "+1 (555) 123-4567" "5551234567" (by decide) (by decide) (by decide)

end PixelCleaner
